import Mathlib

/-!
# TimelineController (kdenlive, `src/timeline2/view/timelinecontroller.cpp`)

A shallow embedding of the timeline controller.  The controller is a façade: it owns a
little state of its own (playhead, pending seek, selection, cached duration, preview flags)
and sequences requests on collaborators whose code lives elsewhere (the timeline model, the
preview manager, the QML root item, the application core).  The collaborators are kept
abstract: their state is a type `W`, their operations are the fields of `Env W`, and every
request the controller issues is logged in a trace of `Call`s.

C++ `int` values are embedded as integers (`Int`).  The 32-bit range is made explicit in
the two places where a value the controller can receive reaches it: `QString::toInt`, which
checks it, and the sum `start + spaceDuration` of `insertSpace`, which wraps around.
-/

namespace Kdenlive

/-! ## Qt strings and containers -/

/-- A `QString`, as its sequence of characters. -/
abbrev QString := List Char

/-- A `QDateTime`; `none` is the null date `QDateTime()`. -/
abbrev QDateTime := Option Nat

/-- The decimal digit character of a number below ten. -/
def digitChar (d : Nat) : Char := Char.ofNat (48 + d)

/-- Decimal digits of `n`, most significant first; `fuel` bounds the number of digits. -/
def natDigits : Nat → Nat → List Char
  | 0, _ => []
  | fuel + 1, n => if n < 10 then [digitChar n] else natDigits fuel (n / 10) ++ [digitChar (n % 10)]

/-- Qt's `QString::number(n)` for a non-negative `n`. -/
def numberNat (n : Nat) : QString := natDigits (n + 1) n

/-- Qt's `QString::number(int)`: decimal notation, with a leading minus sign below zero. -/
def number (i : Int) : QString :=
  match i with
  | Int.ofNat n => numberNat n
  | Int.negSucc n => '-' :: numberNat (n + 1)

/-- Value of a decimal digit character. -/
def digitValue (c : Char) : Option Nat :=
  if '0' ≤ c ∧ c ≤ '9' then some (c.toNat - 48) else none

/-- Reads a run of decimal digits, continuing from the accumulator `acc`. -/
def parseDigitsFrom : Nat → List Char → Option Nat
  | acc, [] => some acc
  | acc, c :: cs =>
    match digitValue c with
    | some d => parseDigitsFrom (10 * acc + d) cs
    | none => none

/-- Reads a non-empty string of decimal digits. -/
def parseDigits (s : List Char) : Option Nat :=
  match s with
  | [] => none
  | _ :: _ => parseDigitsFrom 0 s

/-- Qt's `QChar::isSpace`: the code points U+0009 to U+000D, U+0085, and the separator
characters (space, no-break space, U+1680, U+2000 to U+200A, U+2028, U+2029, U+202F, U+205F,
U+3000). -/
def isSpace (c : Char) : Bool :=
  let n := c.toNat
  (9 ≤ n && n ≤ 13) || n = 32 || n = 133 || n = 160 || n = 5760 || (8192 ≤ n && n ≤ 8202)
    || n = 8232 || n = 8233 || n = 8239 || n = 8287 || n = 12288

/-- The text left once the whitespace at both ends is skipped, as `QString::trimmed` and
the number parser do. -/
def trimmed (s : QString) : QString :=
  ((s.dropWhile isSpace).reverse.dropWhile isSpace).reverse

/-- Qt's `QString::toInt()` in base ten: surrounding whitespace is skipped, an optional sign is
read, and the result is `0` when the text is not a number or does not fit a 32-bit `int`. -/
def toInt (s : QString) : Int :=
  match trimmed s with
  | '-' :: ds =>
    match parseDigits ds with
    | some n => if n ≤ 2147483648 then - (n : Int) else 0
    | none => 0
  | '+' :: ds =>
    match parseDigits ds with
    | some n => if n ≤ 2147483647 then (n : Int) else 0
    | none => 0
  | ds =>
    match parseDigits ds with
    | some n => if n ≤ 2147483647 then (n : Int) else 0
    | none => 0

/-- Qt's `QStringList::join(sep)`. -/
def join (sep : Char) : List QString → QString
  | [] => []
  | [s] => s
  | s :: t :: rest => s ++ sep :: join sep (t :: rest)

/-- Qt's `QString::split(sep, KeepEmptyParts)`: the fields between the separators. -/
def splitKeep (sep : Char) : List Char → List QString
  | [] => [[]]
  | c :: cs =>
    if c = sep then [] :: splitKeep sep cs
    else
      match splitKeep sep cs with
      | [] => [[c]]
      | p :: ps => (c :: p) :: ps

/-- Qt's `QString::split(sep, QString::SkipEmptyParts)`. -/
def split (sep : Char) (s : QString) : List QString :=
  (splitKeep sep s).filter (fun p => !p.isEmpty)

/-- A `QMap<QString, QString>`, as an association list holding each key at most once. -/
abbrev QMap := List (QString × QString)

/-- Qt's `QMap::insert`: the value of an existing key is replaced. -/
def QMap.insert (m : QMap) (k v : QString) : QMap :=
  (k, v) :: m.filter (fun e => e.1 ≠ k)

/-- Qt's `QMap::value(key)`: the stored value, the empty string when the key is absent. -/
def QMap.value (m : QMap) (k : QString) : QString :=
  match m.find? (fun e => e.1 = k) with
  | some e => e.2
  | none => []


/-! ## Controller state -/

/-- The `Selection` record held in `m_selection`. -/
structure Selection where
  selectedClips : List Int
  selectedTrack : Int
  isMultitrackSelected : Bool
  deriving DecidableEq

/-- The members of `TimelineController` that the embedded methods read or write, together
with `m_model->m_overlayTrackCount`, a public member of the model that the controller
assigns directly.  Pointers are embedded by whether they are non-null. -/
structure Controller where
  /-- Whether `m_root` is non-null. -/
  m_root : Bool
  m_position : Int
  m_seekPosition : Int
  m_selection : Selection
  /-- The static member `TimelineController::m_duration`. -/
  m_duration : Int
  m_usePreview : Bool
  /-- Whether `m_timelinePreview` is non-null. -/
  m_timelinePreview : Bool
  /-- Checked state of the `m_disablePreview` action. -/
  disablePreviewChecked : Bool
  /-- Enabled state of the `m_disablePreview` action. -/
  disablePreviewEnabled : Bool
  /-- The model member `m_model->m_overlayTrackCount`. -/
  overlayTrackCount : Int
  deriving DecidableEq

/-- The controller right after its constructor ran; the selection record, which the
constructor does not initialise, is a parameter. -/
def Controller.init (sel : Selection) (duration : Int) : Controller :=
  { m_root := false, m_position := 0, m_seekPosition := -1, m_selection := sel,
    m_duration := duration, m_usePreview := false, m_timelinePreview := false,
    disablePreviewChecked := false, disablePreviewEnabled := false, overlayTrackCount := 0 }

/-! ## Requests issued to the collaborators -/

/-- Signals emitted by the controller. -/
inductive Signal where
  | selectionChanged
  | selectedNull
  | durationChanged
  | seeked (position : Int)
  | seekPositionChanged
  | positionChanged
  deriving DecidableEq

/-- Operations invoked on the preview manager `m_timelinePreview`. -/
inductive PreviewCall where
  | create
  | destroy
  | initializeManager
  | loadParams
  | setOverlayTrack
  | removeOverlayTrack
  | buildPreviewTrack
  | deletePreviewTrack
  | disconnectTrack
  | reconnectTrack
  | startPreviewRender
  | loadChunks (rendered dirty : List Int) (date : QDateTime)
  deriving DecidableEq

/-- One entry of the trace: a request on the timeline model, a message handed to the
application core, an emitted signal, or an operation on the preview manager.  Pure queries
are not logged: by their type they cannot change the collaborators. -/
inductive Call where
  | requestClipsGroup (ids : Finset Int) (temporary forceGroup : Bool)
  | requestClipUngroup (cid : Int)
  | requestClipInsertion (binData : QString) (tid position : Int) (logUndo : Bool)
  | requestCompositionInsertion (transitionId : QString) (tid position length : Int)
      (logUndo : Bool)
  | requestItemResizeToPos (id position : Int) (right : Bool)
  | requestClipCut (cid position : Int)
  | requestSpacerStartOperation (trackId position : Int)
  | requestSpacerEndOperation (clipId startPosition endPosition : Int)
  | displayMessage (text : String)
  | prerenderActionSetEnabled (enabled : Bool)
  | emitSignal (sig : Signal)
  | preview (op : PreviewCall)
  deriving DecidableEq

/-- The collaborators of the controller over a state `W` of their own: the timeline model
`m_model` (with `TimelineFunctions`), the preview manager, the QML root item and the current
document.  Queries return a value; requests return the new collaborator state, with their
result when the controller reads it. -/
structure Env (W : Type) where
  /-- The call `m_model->duration()`. -/
  duration : W → Int
  /-- The call `m_model->getItemPosition(id)`. -/
  getItemPosition : W → Int → Int
  /-- The call `m_model->getTrackById(trackId)->getBlankSizeAtPos(frame)`. -/
  getBlankSizeAtPos : W → Int → Int → Int
  /-- The call `m_model->getClipByPosition(trackId, position)`. -/
  getClipByPosition : W → Int → Int → Int
  /-- The call `m_model->getTrackById(trackId)->getClipsAfterPosition(startFrame, endFrame)`. -/
  getClipsAfterPosition : W → Int → Int → Int → Finset Int
  /-- The call `m_model->m_groups->isInGroup(id)`. -/
  isInGroup : W → Int → Bool
  /-- The call `m_model->isInSelection(id)`. -/
  isInSelection : W → Int → Bool
  /-- The call `m_model->requestClipsGroup(ids, temporary, forceGroup)`; the group id is not
  read. -/
  requestClipsGroup : W → Finset Int → Bool → Bool → W
  /-- The call `m_model->requestClipUngroup(cid)`; the result is not read. -/
  requestClipUngroup : W → Int → W
  /-- The call `m_model->requestClipInsertion(data, tid, position, id, logUndo)`: the result and the
  value found in the output variable `id` after the call. -/
  requestClipInsertion : W → QString → Int → Int → Bool → Bool × Int × W
  /-- The call `m_model->requestCompositionInsertion(transitionId, tid, position, length, id,
  logUndo)`: the result and the value found in `id` after the call. -/
  requestCompositionInsertion : W → QString → Int → Int → Int → Bool → Bool × Int × W
  /-- The call `m_model->requestItemResizeToPos(id, position, right)`; the result is not read. -/
  requestItemResizeToPos : W → Int → Int → Bool → W
  /-- The call `TimelineFunctions::requestClipCut(m_model, cid, position)`. -/
  requestClipCut : W → Int → Int → Bool × W
  /-- The call `TimelineFunctions::requestSpacerStartOperation(m_model, trackId, position)`. -/
  requestSpacerStartOperation : W → Int → Int → Int × W
  /-- The call `TimelineFunctions::requestSpacerEndOperation(m_model, clipId, start, end)`. -/
  requestSpacerEndOperation : W → Int → Int → Int → Bool × W
  /-- The value read from `QMetaObject::invokeMethod(m_root, "currentTrackId", ...)`. -/
  currentTrackId : W → Int
  /-- The order in which a `std::unordered_set<int>` is traversed. -/
  iterate : Finset Int → List Int
  iterate_nodup : ∀ s, (iterate s).Nodup
  mem_iterate : ∀ s x, x ∈ iterate s ↔ x ∈ s
  /-- Whether the document has a `prerender_timeline_zone` action. -/
  hasPrerenderAction : W → Bool
  /-- The call `pCore->currentDoc()->documentProperties()`. -/
  documentProperties : W → QMap
  /-- The call `new PreviewManager(this, m_model->m_tractor.get())`. -/
  previewCreate : W → W
  /-- The call `delete m_timelinePreview`. -/
  previewDelete : W → W
  /-- The call `m_timelinePreview->initialize()`. -/
  previewInitialize : W → Bool × W
  /-- The call `m_timelinePreview->loadParams()`. -/
  loadParams : W → Bool × W
  /-- The call `m_timelinePreview->hasOverlayTrack()`. -/
  hasOverlayTrack : W → Bool
  /-- The call `m_timelinePreview->addedTracks()`. -/
  addedTracks : W → Int
  /-- The call `m_timelinePreview->setOverlayTrack(overlay)`. -/
  setOverlayTrack : W → W
  /-- The call `m_timelinePreview->removeOverlayTrack()`. -/
  removeOverlayTrack : W → W
  /-- The call `m_timelinePreview->buildPreviewTrack()`. -/
  buildPreviewTrack : W → Bool × W
  /-- The call `m_timelinePreview->deletePreviewTrack()`. -/
  deletePreviewTrack : W → W
  /-- The call `m_timelinePreview->disconnectTrack()`. -/
  disconnectTrack : W → W
  /-- The call `m_timelinePreview->reconnectTrack()`. -/
  reconnectTrack : W → W
  /-- The call `m_timelinePreview->startPreviewRender()`. -/
  startPreviewRender : W → W
  /-- The call `m_timelinePreview->loadChunks(rendered, dirty, date)`. -/
  loadChunks : W → List Int → List Int → QDateTime → W
  /-- The call `m_timelinePreview->previewChunks()`. -/
  previewChunks : W → List QString × List QString

/-- A point of an execution: the controller, the collaborators, and the requests issued so
far, oldest first. -/
structure Run (W : Type) where
  ctl : Controller
  world : W
  trace : List Call

variable {W : Type}

/-- Logs a request and installs the collaborator state it produced. -/
def Run.call (r : Run W) (c : Call) (w : W) : Run W :=
  { r with world := w, trace := r.trace ++ [c] }

/-- Logs an entry that leaves the collaborators alone. -/
def Run.log (r : Run W) (c : Call) : Run W :=
  { r with trace := r.trace ++ [c] }

/-- Updates the controller's members. -/
def Run.modify (r : Run W) (f : Controller → Controller) : Run W :=
  { r with ctl := f r.ctl }

/-! ## Selection -/

/-- Method `TimelineController::selection`. -/
def selection (c : Controller) : List Int :=
  if !c.m_root then [] else c.m_selection.selectedClips

/-- Method `TimelineController::emitSelectedFromSelection`: its whole body is commented out. -/
def emitSelectedFromSelection (r : Run W) : Run W := r

/-- The tail shared by `addSelection` and `setSelection`: the selected clips are copied
into an unordered set, the model is asked for a temporary forced group of it, and the
selection signals are emitted. -/
def groupAndNotify (E : Env W) (r : Run W) : Run W :=
  let ids : Finset Int := r.ctl.m_selection.selectedClips.toFinset
  let r1 := r.call (.requestClipsGroup ids true true) (E.requestClipsGroup r.world ids true true)
  let r2 := r1.log (.emitSignal .selectionChanged)
  if !r2.ctl.m_selection.selectedClips.isEmpty then emitSelectedFromSelection r2
  else r2.log (.emitSignal .selectedNull)

/-- Method `TimelineController::addSelection`. -/
def addSelection (E : Env W) (newSelection : Int) (r : Run W) : Run W :=
  if r.ctl.m_selection.selectedClips.contains newSelection then r
  else
    groupAndNotify E (r.modify fun c =>
      { c with m_selection :=
          { c.m_selection with selectedClips := c.m_selection.selectedClips ++ [newSelection] } })

/-- Method `TimelineController::getCurrentItem`. -/
def getCurrentItem (c : Controller) : Int :=
  match c.m_selection.selectedClips with
  | [] => -1
  | first :: _ => first

/-- Method `TimelineController::setSelection`. -/
def setSelection (E : Env W) (newSelection : List Int) (trackIndex : Int) (isMultitrack : Bool)
    (r : Run W) : Run W :=
  if newSelection ≠ selection r.ctl ∨ trackIndex ≠ r.ctl.m_selection.selectedTrack
      ∨ isMultitrack ≠ r.ctl.m_selection.isMultitrackSelected then
    groupAndNotify E (r.modify fun c =>
      { c with m_selection :=
          { selectedClips := newSelection, selectedTrack := trackIndex,
            isMultitrackSelected := isMultitrack } })
  else r

/-- The set built by the first loop of `selectItems`: the clips each listed track reports
for the range, inserted into `clipsToSelect` track after track. -/
def clipsToSelect (E : Env W) (w : W) (arg : List Int) (startFrame endFrame : Int) :
    Finset Int :=
  arg.foldl (fun acc tid => acc ∪ E.getClipsAfterPosition w tid startFrame endFrame) ∅

/-- Method `TimelineController::selectItems`; `arg` holds the track ids `arg.at(i).toInt()`. -/
def selectItems (E : Env W) (arg : List Int) (startFrame endFrame : Int) (r : Run W) : Run W :=
  let ids := clipsToSelect E r.world arg startFrame endFrame
  let r1 := r.modify fun c =>
    { c with m_selection := { c.m_selection with selectedClips := [] ++ E.iterate ids } }
  let r2 := r1.call (.requestClipsGroup ids true true) (E.requestClipsGroup r1.world ids true true)
  r2.log (.emitSignal .selectionChanged)

/-- Method `TimelineController::unGroupSelection`. -/
def unGroupSelection (E : Env W) (cid : Int) (r : Run W) : Run W :=
  if cid = -1 ∧ r.ctl.m_selection.selectedClips.isEmpty then r
  else
    let cid :=
      if cid = -1 then
        match r.ctl.m_selection.selectedClips.find?
            (fun id => E.isInGroup r.world id && !E.isInSelection r.world id) with
        | some id => id
        | none => cid
      else cid
    if cid > -1 then
      ((r.call (.requestClipUngroup cid) (E.requestClipUngroup r.world cid)).modify fun c =>
        { c with m_selection := { c.m_selection with selectedClips := [] } }).log
        (.emitSignal .selectionChanged)
    else r

/-- Method `TimelineController::setSeekPosition`. -/
def setSeekPosition (position : Int) (r : Run W) : Run W :=
  (r.modify fun c => { c with m_seekPosition := position }).log
    (.emitSignal .seekPositionChanged)

/-- Method `TimelineController::setPosition`. -/
def setPosition (position : Int) (r : Run W) : Run W :=
  (setSeekPosition position r).log (.emitSignal (.seeked position))

/-- Method `TimelineController::onSeeked`. -/
def onSeeked (position : Int) (r : Run W) : Run W :=
  let r1 := (r.modify fun c => { c with m_position := position }).log
    (.emitSignal .positionChanged)
  if r1.ctl.m_seekPosition > -1 ∧ position = r1.ctl.m_seekPosition then
    (r1.modify fun c => { c with m_seekPosition := -1 }).log (.emitSignal .seekPositionChanged)
  else r1

/-! ## Duration -/

/-- Method `TimelineController::duration`. -/
def duration (c : Controller) : Int := c.m_duration

/-- Method `TimelineController::checkDuration`. -/
def checkDuration (E : Env W) (r : Run W) : Run W :=
  let currentLength := E.duration r.world
  if currentLength ≠ r.ctl.m_duration then
    (r.modify fun c => { c with m_duration := currentLength }).log (.emitSignal .durationChanged)
  else r

/-! ## Insertion -/

/-- Method `TimelineController::insertClip`: the returned id and the execution after the call. -/
def insertClip (E : Env W) (tid position : Int) (data_str : QString) (logUndo : Bool)
    (r : Run W) : Int × Run W :=
  let tid := if tid = -1 then E.currentTrackId r.world else tid
  let position := if position = -1 then r.ctl.m_position else position
  let res := E.requestClipInsertion r.world data_str tid position logUndo
  let r1 := r.call (.requestClipInsertion data_str tid position logUndo) res.2.2
  let id := res.2.1
  let id := if !res.1 then -1 else id
  (id, r1)

/-- Method `TimelineController::insertComposition`. -/
def insertComposition (E : Env W) (tid position : Int) (transitionId : QString)
    (logUndo : Bool) (r : Run W) : Int × Run W :=
  let res := E.requestCompositionInsertion r.world transitionId tid position 100 logUndo
  let r1 := r.call (.requestCompositionInsertion transitionId tid position 100 logUndo) res.2.2
  let id := res.2.1
  let id := if !res.1 then -1 else id
  (id, r1)

/-! ## Cutting -/

/-- The first loop of `cutClipUnderCursor`: a cut is requested for each selected clip in
turn, and `foundClip` is raised by every request that succeeds. -/
def cutSelected (E : Env W) (position : Int) : List Int → Bool × Run W → Bool × Run W
  | [], acc => acc
  | cid :: rest, (foundClip, r) =>
    let res := E.requestClipCut r.world cid position
    cutSelected E position rest
      (if res.1 then true else foundClip, r.call (.requestClipCut cid position) res.2)

/-- Method `TimelineController::cutClipUnderCursor`. -/
def cutClipUnderCursor (E : Env W) (position track : Int) (r : Run W) : Run W :=
  let position := if position = -1 then r.ctl.m_position else position
  let (foundClip, r1) := cutSelected E position r.ctl.m_selection.selectedClips (false, r)
  if !foundClip then
    let track := if track = -1 then E.currentTrackId r1.world else track
    if track ≥ 0 then
      let cid := E.getClipByPosition r1.world track position
      if cid ≥ 0 then
        r1.call (.requestClipCut cid position) (E.requestClipCut r1.world cid position).2
      else r1
    else r1
  else r1

/-! ## Spacer -/

/-- Method `TimelineController::requestSpacerStartOperation`. -/
def requestSpacerStartOperation (E : Env W) (trackId position : Int) (r : Run W) :
    Int × Run W :=
  let res := E.requestSpacerStartOperation r.world trackId position
  (res.1, r.call (.requestSpacerStartOperation trackId position) res.2)

/-- Method `TimelineController::requestSpacerEndOperation`. -/
def requestSpacerEndOperation (E : Env W) (clipId startPosition endPosition : Int)
    (r : Run W) : Bool × Run W :=
  let res := E.requestSpacerEndOperation r.world clipId startPosition endPosition
  (res.1, r.call (.requestSpacerEndOperation clipId startPosition endPosition) res.2)

/-- What `insertSpace` reads from the `SpacerDialog` it opens: whether `exec()` returned
`QDialog::Accepted`, `affectAllTracks()`, and `selectedDuration()` in frames. -/
structure SpacerDialog where
  accepted : Bool
  affectAllTracks : Bool
  selectedFrames : Int
  deriving DecidableEq

/-- The text shown by `insertSpace` and `removeSpace` when nothing can be spaced. -/
def noClipsMessage : String := "No clips found to insert space"

/-- The value a 32-bit `int` holds after an arithmetic result `i`: `i` itself inside
`[-2^31, 2^31 - 1]`, and `i` reduced modulo `2^32` into that range outside it. -/
def wrapInt32 (i : Int) : Int :=
  (i + 2147483648) % 4294967296 - 2147483648

/-- Method `TimelineController::insertSpace`; `d` is the outcome of the dialog.  The new
start `start + spaceDuration` is a sum of two `int` values, held in an `int`. -/
def insertSpace (E : Env W) (d : SpacerDialog) (trackId frame : Int) (r : Run W) : Run W :=
  let frame := if frame = -1 then r.ctl.m_position else frame
  let trackId := if trackId = -1 then E.currentTrackId r.world else trackId
  if !d.accepted then r
  else
    let (cid, r1) :=
      requestSpacerStartOperation E (if d.affectAllTracks then -1 else trackId) frame r
    let spaceDuration := d.selectedFrames
    if cid = -1 then r1.log (.displayMessage noClipsMessage)
    else
      let start := E.getItemPosition r1.world cid
      (requestSpacerEndOperation E cid start (wrapInt32 (start + spaceDuration)) r1).2

/-- Method `TimelineController::removeSpace`. -/
def removeSpace (E : Env W) (trackId frame : Int) (affectAllTracks : Bool) (r : Run W) :
    Run W :=
  let frame := if frame = -1 then r.ctl.m_position else frame
  let trackId := if trackId = -1 then E.currentTrackId r.world else trackId
  let spaceDuration := E.getBlankSizeAtPos r.world trackId frame
  let (cid, r1) := requestSpacerStartOperation E (if affectAllTracks then -1 else trackId) frame r
  if cid = -1 then r1.log (.displayMessage noClipsMessage)
  else
    let start := E.getItemPosition r1.world cid
    (requestSpacerEndOperation E cid start (start - spaceDuration) r1).2

/-! ## Timeline preview

A method that reaches `m_timelinePreview->...` while the pointer is null has no defined
result; such a method returns `none` there. -/

/-- Method `TimelineController::initializePreview`. -/
def initializePreview (E : Env W) (r : Run W) : Run W :=
  let r1 :=
    if r.ctl.m_timelinePreview then
      let lp := E.loadParams r.world
      let ra := r.call (.preview .loadParams) lp.2
      if !lp.1 then
        let rb :=
          if ra.ctl.m_usePreview then
            (ra.call (.preview .disconnectTrack) (E.disconnectTrack ra.world)).modify
              fun c => { c with m_usePreview := false }
          else ra
        (rb.call (.preview .destroy) (E.previewDelete rb.world)).modify
          fun c => { c with m_timelinePreview := false }
      else ra
    else
      let ra := (r.call (.preview .create) (E.previewCreate r.world)).modify
        fun c => { c with m_timelinePreview := true }
      let ini := E.previewInitialize ra.world
      let rb := ra.call (.preview .initializeManager) ini.2
      if !ini.1 then
        (rb.call (.preview .destroy) (E.previewDelete rb.world)).modify
          fun c => { c with m_timelinePreview := false }
      else rb
  let r2 :=
    if E.hasPrerenderAction r1.world then
      r1.log (.prerenderActionSetEnabled r1.ctl.m_timelinePreview)
    else r1
  r2.modify fun c =>
    { c with disablePreviewEnabled := c.m_timelinePreview, disablePreviewChecked := false }

/-- Method `TimelineController::disablePreview`. -/
def disablePreview (E : Env W) (disable : Bool) (r : Run W) : Option (Run W) :=
  if !r.ctl.m_timelinePreview then none
  else
    let r1 :=
      if disable then
        let ra := r.call (.preview .deletePreviewTrack) (E.deletePreviewTrack r.world)
        ra.modify fun c =>
          { c with m_usePreview := false, overlayTrackCount := E.addedTracks ra.world }
      else if !r.ctl.m_usePreview then
        let bt := E.buildPreviewTrack r.world
        let ra := r.call (.preview .buildPreviewTrack) bt.2
        let rb :=
          if !bt.1 then ra.call (.preview .reconnectTrack) (E.reconnectTrack ra.world) else ra
        let rc := rb.call (.preview (.loadChunks [] [] none)) (E.loadChunks rb.world [] [] none)
        rc.modify fun c => { c with m_usePreview := true }
      else r
    some (r1.modify fun c => { c with overlayTrackCount := E.addedTracks r1.world })

/-- Method `TimelineController::startPreviewRender`. -/
def startPreviewRender (E : Env W) (r : Run W) : Option (Run W) :=
  let r1 : Option (Run W) :=
    if !r.ctl.m_timelinePreview then some (initializePreview E r)
    else if r.ctl.disablePreviewChecked then
      disablePreview E false (r.modify fun c => { c with disablePreviewChecked := false })
    else some r
  r1.map fun r1 =>
    if r1.ctl.m_timelinePreview then
      let r2 :=
        if !r1.ctl.m_usePreview then
          let ra := r1.call (.preview .buildPreviewTrack) (E.buildPreviewTrack r1.world).2
          ra.modify fun c =>
            { c with m_usePreview := true, overlayTrackCount := E.addedTracks ra.world }
        else r1
      r2.call (.preview .startPreviewRender) (E.startPreviewRender r2.world)
    else r1

/-- Method `TimelineController::createSplitOverlay`, with the result it returns.  The overlay
playlist is assembled from local MLT objects before the preview manager is touched. -/
def createSplitOverlay (E : Env W) (r : Run W) : Option (Bool × Run W) :=
  if r.ctl.m_timelinePreview && E.hasOverlayTrack r.world then some (true, r)
  else
    let clipId := getCurrentItem r.ctl
    if clipId = -1 then some (false, r.log (.displayMessage "Select a clip to compare effect"))
    else
      let r1 := if !r.ctl.m_timelinePreview then initializePreview E r else r
      if !r1.ctl.m_timelinePreview then none
      else
        let r2 := r1.call (.preview .setOverlayTrack) (E.setOverlayTrack r1.world)
        some (true, r2.modify fun c => { c with overlayTrackCount := E.addedTracks r2.world })

/-- Method `TimelineController::removeSplitOverlay`. -/
def removeSplitOverlay (E : Env W) (r : Run W) : Option (Run W) :=
  if r.ctl.m_timelinePreview && !E.hasOverlayTrack r.world then some r
  else if !r.ctl.m_timelinePreview then none
  else
    let r1 := r.call (.preview .removeOverlayTrack) (E.removeOverlayTrack r.world)
    some (r1.modify fun c => { c with overlayTrackCount := E.addedTracks r1.world })

/-- Method `TimelineController::loadPreview`. -/
def loadPreview (E : Env W) (chunks dirty : QString) (documentDate : QDateTime) (enable : Int)
    (r : Run W) : Option (Run W) :=
  let r1 := if !r.ctl.m_timelinePreview then initializePreview E r else r
  let chunksList := split ',' chunks
  let dirtyList := split ',' dirty
  let renderedChunks := chunksList.map toInt
  let dirtyChunks := dirtyList.map toInt
  let r2 := r1.modify fun c => { c with disablePreviewChecked := decide (enable ≠ 0) }
  if !r2.ctl.m_timelinePreview then none
  else
    let r3 :=
      if enable = 0 then r2.call (.preview .buildPreviewTrack) (E.buildPreviewTrack r2.world).2
      else r2
    some (r3.call (.preview (.loadChunks renderedChunks dirtyChunks documentDate))
      (E.loadChunks r3.world renderedChunks dirtyChunks documentDate))

/-- Method `TimelineController::documentProperties`. -/
def documentProperties (E : Env W) (r : Run W) : QMap :=
  let props := E.documentProperties r.world
  let props :=
    if r.ctl.m_timelinePreview then
      let chunks := E.previewChunks r.world
      (props.insert "previewchunks".toList (join ',' chunks.1)).insert
        "dirtypreviewchunks".toList (join ',' chunks.2)
    else props
  props.insert "disablepreview".toList (number (if r.ctl.disablePreviewChecked then 1 else 0))

/-- The `loadChunks` requests of a trace, oldest first, with their arguments. -/
def loadChunksCalls : List Call → List (List Int × List Int × QDateTime)
  | [] => []
  | Call.preview (PreviewCall.loadChunks rendered dirty date) :: rest =>
    (rendered, dirty, date) :: loadChunksCalls rest
  | _ :: rest => loadChunksCalls rest

/-! ## A timeline to run the controller on

The collaborators' code is not part of the controller's source file.  The general statements
below hold for every `Env`; the timeline defined here gives them concrete executions. -/

/-- Modelled from the spec: the PreviewManager, which "tracks how many extra tracks it has
injected (`addedTracks()`)" on "track insertion/removal for preview/overlay purposes" and
keeps the rendered and the dirty chunk lists. -/
structure PreviewManager where
  previewTrack : Bool
  overlayTrack : Bool
  renderedChunks : List Int
  dirtyChunks : List Int
  deriving DecidableEq

/-- Modelled from the spec: an Item of the data model, with its "integer id", its owning
track, its `position` (start frame) and its `duration` (frames). -/
structure Item where
  id : Int
  trackId : Int
  position : Int
  duration : Int
  deriving DecidableEq

/-- Modelled from the spec: the timeline the controller talks to, reduced to its items, the
ids of the ephemeral selection group, the preview manager, whether a preview manager can be
set up, the track the front-end reports as current, and the standing groups of the
GroupsModel, each the set of its member ids. -/
structure Timeline where
  items : List Item
  selectionGroup : Finset Int
  preview : PreviewManager
  previewAvailable : Bool
  currentTrack : Int
  groups : List (Finset Int) := []
  deriving DecidableEq

/-- Modelled from the spec: the "total timeline extent", the largest end of an item. -/
def Timeline.extent (t : Timeline) : Int :=
  t.items.foldl (fun acc it => max acc (it.position + it.duration)) 0

/-- Modelled from the spec: the position of an item, `-1` for an unknown id. -/
def Timeline.itemPosition (t : Timeline) (id : Int) : Int :=
  match t.items.find? (fun it => it.id = id) with
  | some it => it.position
  | none => -1

/-- Modelled from the spec: `clipAtPosition(frame) -> itemId?` on one track, the item whose
range `[position, position + duration)` holds the frame, `-1` when there is none. -/
def Timeline.clipAt (t : Timeline) (trackId frame : Int) : Int :=
  match t.items.find? (fun it =>
      it.trackId = trackId ∧ it.position ≤ frame ∧ frame < it.position + it.duration) with
  | some it => it.id
  | none => -1

/-- Modelled from the spec: `clipsInRange(start,end) -> set<itemId>` on one track. -/
def Timeline.clipsInRange (t : Timeline) (trackId startFrame endFrame : Int) : Finset Int :=
  ((t.items.filter fun it =>
      it.trackId = trackId ∧ startFrame ≤ it.position ∧ it.position < endFrame).map
    fun it => it.id).toFinset

/-- The item with the smallest start among `l`, the earliest listed on a tie. -/
def firstByPosition : List Item → Option Item
  | [] => none
  | it :: rest =>
    match firstByPosition rest with
    | some best => if best.position < it.position then some best else some it
    | none => some it

/-- Modelled from the spec: `blankSizeAt(frame) -> duration` (0 if occupied): the length of
the gap of the track that holds the frame, from the end of the items before it to the start
of the next item; `0` when no item starts after the frame. -/
def Timeline.blankSizeAt (t : Timeline) (trackId frame : Int) : Int :=
  if t.clipAt trackId frame ≠ -1 then 0
  else
    match firstByPosition
        (t.items.filter fun it => it.trackId = trackId ∧ frame < it.position) with
    | some next =>
      next.position -
        (t.items.filter fun it =>
            it.trackId = trackId ∧ it.position + it.duration ≤ frame).foldl
          (fun acc it => max acc (it.position + it.duration)) 0
    | none => 0

/-- Modelled from the spec: the spacer's Start, which "selects a reference item at or after
`(trackId, position)` (the first item whose start is ≥ position on the given track, or across
all tracks if `trackId = -1`) and returns its id without mutating anything"; `-1` when there
is no such item. -/
def Timeline.spacerStart (t : Timeline) (trackId position : Int) : Int :=
  match firstByPosition (t.items.filter fun it =>
      (trackId = -1 ∨ it.trackId = trackId) ∧ position ≤ it.position) with
  | some it => it.id
  | none => -1

/-- Modelled from the spec: the spacer's End, which "applies a uniform shift of
`newStart - originalStart` to every item at or after `originalStart`"; it fails when there
is no such item. -/
def Timeline.spacerEnd (t : Timeline) (originalStart newStart : Int) : Bool × Timeline :=
  if t.items.any (fun it => originalStart ≤ it.position) then
    (true, { t with items := t.items.map fun it =>
      if originalStart ≤ it.position then
        { it with position := it.position + (newStart - originalStart) }
      else it })
  else (false, t)

/-- Modelled from the spec: cutting, which "splits one item at `position` into two items
with contiguous, non-overlapping ranges" `[in, position)` and `[position, out)` and fails
"if `position` is not strictly interior to the item's range".  The second half gets the
first unused id. -/
def Timeline.cut (t : Timeline) (cid position : Int) : Bool × Timeline :=
  match t.items.find? (fun it => it.id = cid) with
  | some it =>
    if it.position < position ∧ position < it.position + it.duration then
      let fresh := t.items.foldl (fun acc x => max acc (x.id + 1)) 0
      (true, { t with items :=
        (t.items.map fun x =>
          if x.id = cid then { x with duration := position - x.position } else x) ++
        [{ id := fresh, trackId := it.trackId, position := position,
           duration := it.position + it.duration - position }] })
    else (false, t)
  | none => (false, t)

/-- Modelled from the spec: the preview manager's count of injected tracks. -/
def PreviewManager.addedTracks (p : PreviewManager) : Int :=
  (if p.previewTrack then 1 else 0) + (if p.overlayTrack then 1 else 0)

/-- Modelled from the spec: the collaborators over a `Timeline`.  Grouping a selection
makes its ids the ephemeral group, grouping otherwise adds a standing group, and ungrouping
an id dissolves the standing groups that hold it; building the preview track injects it
unless it is already there; the chunk lists are persisted as decimal frame numbers.
Requests whose effect the spec leaves to the model (insertion, resizing) are refused and
leave the timeline as it is. -/
def Timeline.env : Env Timeline where
  duration := Timeline.extent
  getItemPosition := Timeline.itemPosition
  getBlankSizeAtPos := Timeline.blankSizeAt
  getClipByPosition := Timeline.clipAt
  getClipsAfterPosition := Timeline.clipsInRange
  isInGroup := fun t id => t.groups.any fun g => decide (id ∈ g)
  isInSelection := fun t id => decide (id ∈ t.selectionGroup)
  requestClipsGroup := fun t ids temporary _ =>
    if temporary then { t with selectionGroup := ids } else { t with groups := t.groups ++ [ids] }
  requestClipUngroup := fun t id =>
    { t with groups := t.groups.filter fun g => decide (id ∉ g) }
  requestClipInsertion := fun t _ _ _ _ => (false, 0, t)
  requestCompositionInsertion := fun t _ _ _ _ _ => (false, 0, t)
  requestItemResizeToPos := fun t _ _ _ => t
  requestClipCut := Timeline.cut
  requestSpacerStartOperation := fun t trackId position => (t.spacerStart trackId position, t)
  requestSpacerEndOperation := fun t _ startPosition endPosition =>
    t.spacerEnd startPosition endPosition
  currentTrackId := fun t => t.currentTrack
  iterate := fun s => s.sort (· ≤ ·)
  iterate_nodup := fun s => s.sort_nodup (· ≤ ·)
  mem_iterate := fun s x => by simp
  hasPrerenderAction := fun _ => true
  documentProperties := fun _ => []
  previewCreate := fun t => { t with preview := ⟨false, false, [], []⟩ }
  previewDelete := fun t => { t with preview := ⟨false, false, [], []⟩ }
  previewInitialize := fun t => (t.previewAvailable, t)
  loadParams := fun t => (t.previewAvailable, t)
  hasOverlayTrack := fun t => t.preview.overlayTrack
  addedTracks := fun t => t.preview.addedTracks
  setOverlayTrack := fun t => { t with preview := { t.preview with overlayTrack := true } }
  removeOverlayTrack := fun t => { t with preview := { t.preview with overlayTrack := false } }
  buildPreviewTrack := fun t =>
    if t.preview.previewTrack then (false, t)
    else (true, { t with preview := { t.preview with previewTrack := true } })
  deletePreviewTrack := fun t => { t with preview := { t.preview with previewTrack := false } }
  disconnectTrack := fun t => t
  reconnectTrack := fun t => t
  startPreviewRender := fun t => t
  loadChunks := fun t rendered dirty _ =>
    { t with preview := { t.preview with renderedChunks := rendered, dirtyChunks := dirty } }
  previewChunks := fun t => (t.preview.renderedChunks.map number, t.preview.dirtyChunks.map number)

/-- The spec's scenario track: items at `[0,100)` and `[150,200)` on track 1, no preview
manager yet, one can be set up. -/
def Timeline.scenario : Timeline :=
  { items := [⟨1, 1, 0, 100⟩, ⟨2, 1, 150, 50⟩], selectionGroup := ∅,
    preview := ⟨false, false, [], []⟩, previewAvailable := true, currentTrack := 1 }

/-- A controller freshly constructed on the scenario timeline, nothing selected. -/
def Run.fresh : Run Timeline :=
  { ctl := Controller.init ⟨[], -1, false⟩ 0, world := Timeline.scenario, trace := [] }

/-- A controller on the scenario timeline whose preview manager holds the rendered chunks
0 and 25 and the dirty chunk 50. -/
def Run.rendered : Run Timeline :=
  { ctl := { Controller.init ⟨[], -1, false⟩ 0 with m_timelinePreview := true },
    world := { Timeline.scenario with preview := ⟨true, false, [0, 25], [50]⟩ },
    trace := [] }

/-- Method `TimelineController::setRoot`; `root` tells whether the pointer passed is non-null. -/
def setRoot (root : Bool) (r : Run W) : Run W :=
  r.modify fun c => { c with m_root := root }

/-- The scenario controller once the QML root item has been handed to it. -/
def Run.ready : Run Timeline := setRoot true Run.fresh

/-- The scenario controller with clip 1 selected on a timeline where clips 1 and 2 form a
standing group. -/
def Run.grouped : Run Timeline :=
  { ctl := { Run.ready.ctl with m_selection := ⟨[1], 1, false⟩ },
    world := { Timeline.scenario with groups := [{1, 2}] },
    trace := [] }

/-- A timeline of two tracks: items at `[0,10)` and `[100,110)` on track 1, an item at
`[60,70)` on track 2. -/
def Timeline.twoTracks : Timeline :=
  { items := [⟨1, 1, 0, 10⟩, ⟨2, 1, 100, 10⟩, ⟨3, 2, 60, 10⟩], selectionGroup := ∅,
    preview := ⟨false, false, [], []⟩, previewAvailable := false, currentTrack := 1 }

/-- A controller with its root item set on the two-track timeline, on which no preview
manager can be set up; clip 1 is selected. -/
def Run.twoTracks : Run Timeline :=
  { ctl := { Controller.init ⟨[1], 1, false⟩ 0 with m_root := true },
    world := Timeline.twoTracks, trace := [] }

/-- A controller with its root item set on a timeline whose only item, on track 1, spans
`[2147483600, 2147483610)`, close to the largest `int`. -/
def Run.farEnd : Run Timeline :=
  { ctl := { Controller.init ⟨[], -1, false⟩ 0 with m_root := true },
    world := { items := [⟨1, 1, 2147483600, 10⟩], selectionGroup := ∅,
               preview := ⟨false, false, [], []⟩, previewAvailable := true,
               currentTrack := 1 },
    trace := [] }

/-- The state `unGroupSelection` reaches when it requests the ungrouping of `id`: the
request is issued, the selected clips are cleared and `selectionChanged` is emitted. -/
def ungrouped (E : Env W) (id : Int) (r : Run W) : Run W :=
  { ctl := { r.ctl with m_selection := { r.ctl.m_selection with selectedClips := [] } }
    world := E.requestClipUngroup r.world id
    trace := r.trace ++ [Call.requestClipUngroup id, Call.emitSignal Signal.selectionChanged] }

/-- Modelled from the spec: the Item invariant "two items on the same track never overlap
in `[position, position+duration)`". -/
def Timeline.NoOverlap (t : Timeline) : Prop :=
  t.items.Pairwise fun a b =>
    a.trackId = b.trackId →
      a.position + a.duration ≤ b.position ∨ b.position + b.duration ≤ a.position

theorem digitValue_digitChar : ∀ d, d < 10 → digitValue (digitChar d) = some d := by
  decide

theorem digitChar_ne_comma : ∀ d, d < 10 → digitChar d ≠ ',' := by
  decide

theorem digitChar_not_space : ∀ d, d < 10 → isSpace (digitChar d) = false := by
  decide

theorem digitChar_ne_sign : ∀ d, d < 10 → digitChar d ≠ '-' ∧ digitChar d ≠ '+' := by
  decide

theorem natDigits_digit (fuel n : Nat) :
    ∀ c ∈ natDigits fuel n, ∃ d, d < 10 ∧ c = digitChar d := by
  induction fuel generalizing n with
  | zero => intro c hc; simp [natDigits] at hc
  | succ fuel ih =>
    intro c hc
    unfold natDigits at hc
    split at hc
    · simp only [List.mem_singleton] at hc
      exact ⟨n, by assumption, hc⟩
    · rcases List.mem_append.mp hc with h | h
      · exact ih _ c h
      · simp only [List.mem_singleton] at h
        exact ⟨n % 10, Nat.mod_lt _ (by decide), h⟩

theorem natDigits_ne_nil (fuel n : Nat) : natDigits (fuel + 1) n ≠ [] := by
  unfold natDigits
  split <;> simp

theorem parseDigitsFrom_append (acc : Nat) (l : List Char) (c : Char) :
    parseDigitsFrom acc (l ++ [c]) =
      (parseDigitsFrom acc l).bind fun a => (digitValue c).map fun d => 10 * a + d := by
  induction l generalizing acc with
  | nil =>
    simp only [List.nil_append, parseDigitsFrom, Option.some_bind]
    cases digitValue c <;> simp [parseDigitsFrom]
  | cons x xs ih =>
    simp only [List.cons_append, parseDigitsFrom]
    cases digitValue x with
    | none => simp
    | some d => simpa using ih (10 * acc + d)

theorem parseDigitsFrom_natDigits (fuel n : Nat) (h : n < fuel) :
    parseDigitsFrom 0 (natDigits fuel n) = some n := by
  induction fuel generalizing n with
  | zero => omega
  | succ fuel ih =>
    unfold natDigits
    split
    · rename_i hlt
      simp [parseDigitsFrom, digitValue_digitChar n hlt]
    · rename_i hge
      have hdiv : n / 10 < fuel := by omega
      rw [parseDigitsFrom_append, ih _ hdiv, digitValue_digitChar _ (Nat.mod_lt _ (by decide))]
      simp only [Option.some_bind, Option.map_some']
      congr 1
      omega

theorem parseDigits_numberNat (n : Nat) : parseDigits (numberNat n) = some n := by
  have h := parseDigitsFrom_natDigits (n + 1) n (Nat.lt_succ_self n)
  have hne := natDigits_ne_nil n n
  unfold parseDigits numberNat
  cases hd : natDigits (n + 1) n with
  | nil => exact absurd hd hne
  | cons c cs => simpa [hd] using h

theorem trimmed_eq_self (s : QString) (h : ∀ c ∈ s, isSpace c = false) : trimmed s = s := by
  have hdrop : ∀ t : List Char, (∀ c ∈ t, isSpace c = false) → t.dropWhile isSpace = t := by
    intro t ht
    cases t with
    | nil => rfl
    | cons c cs => simp [List.dropWhile, ht c (List.mem_cons_self _ _)]
  unfold trimmed
  rw [hdrop s h, hdrop s.reverse (fun c hc => h c (List.mem_reverse.mp hc)), List.reverse_reverse]

theorem toInt_numberNat (n : Nat) (h : n < 2 ^ 31) : toInt (numberNat n) = (n : Int) := by
  have hdig := natDigits_digit (n + 1) n
  have hparse := parseDigits_numberNat n
  have htrim : trimmed (numberNat n) = numberNat n := by
    apply trimmed_eq_self
    intro c hc
    obtain ⟨d, hd, rfl⟩ := hdig c hc
    exact digitChar_not_space d hd
  have hle : n ≤ 2147483647 := by
    have : (2 : Nat) ^ 31 = 2147483648 := by norm_num
    omega
  unfold toInt
  rw [htrim]
  cases hs : numberNat n with
  | nil => exact absurd hs (natDigits_ne_nil n n)
  | cons c cs =>
    have hc : c ∈ natDigits (n + 1) n := by
      have : c ∈ numberNat n := by rw [hs]; exact List.mem_cons_self _ _
      exact this
    obtain ⟨d, hd, rfl⟩ := hdig c hc
    have hsign := digitChar_ne_sign d hd
    rw [hs] at hparse
    split
    · rename_i heq; exact absurd (List.cons.inj heq).1 hsign.1
    · rename_i heq; exact absurd (List.cons.inj heq).1 hsign.2
    · simp [hparse, hle]

theorem numberNat_ne_nil (n : Nat) : numberNat n ≠ [] := natDigits_ne_nil n n

theorem comma_not_mem_numberNat (n : Nat) : ',' ∉ numberNat n := by
  intro hmem
  obtain ⟨d, hd, hc⟩ := natDigits_digit (n + 1) n ',' hmem
  exact digitChar_ne_comma d hd hc.symm

theorem splitKeep_of_not_mem (sep : Char) (s : QString) (h : sep ∉ s) :
    splitKeep sep s = [s] := by
  induction s with
  | nil => rfl
  | cons c cs ih =>
    have hc : c ≠ sep := fun e => h (e ▸ List.mem_cons_self _ _)
    have hcs : sep ∉ cs := fun m => h (List.mem_cons_of_mem _ m)
    simp [splitKeep, hc, ih hcs]

theorem splitKeep_append_sep (sep : Char) (s rest : QString) (h : sep ∉ s) :
    splitKeep sep (s ++ sep :: rest) = s :: splitKeep sep rest := by
  induction s with
  | nil => simp [splitKeep]
  | cons c cs ih =>
    have hc : c ≠ sep := fun e => h (e ▸ List.mem_cons_self _ _)
    have hcs : sep ∉ cs := fun m => h (List.mem_cons_of_mem _ m)
    simp [splitKeep, hc, ih hcs]

theorem splitKeep_join (sep : Char) (l : List QString) (hl : l ≠ [])
    (h : ∀ s ∈ l, sep ∉ s) : splitKeep sep (join sep l) = l := by
  induction l with
  | nil => exact absurd rfl hl
  | cons s t ih =>
    cases t with
    | nil => simpa [join] using splitKeep_of_not_mem sep s (h s (List.mem_cons_self _ _))
    | cons u rest =>
      have hs : sep ∉ s := h s (List.mem_cons_self _ _)
      have ht := ih (by simp) (fun x hx => h x (List.mem_cons_of_mem _ hx))
      simp only [join] at ht ⊢
      rw [splitKeep_append_sep sep s _ hs, ht]

theorem split_join (sep : Char) (l : List QString)
    (h : ∀ s ∈ l, s ≠ [] ∧ sep ∉ s) : split sep (join sep l) = l := by
  cases l with
  | nil => simp [split, join, splitKeep]
  | cons s t =>
    unfold split
    rw [splitKeep_join sep (s :: t) (by simp) (fun x hx => (h x hx).2)]
    apply List.filter_eq_self.mpr
    intro x hx
    have := (h x hx).1
    cases x with
    | nil => exact absurd rfl this
    | cons _ _ => rfl

theorem split_join_numbers (l : List Nat) :
    split ',' (join ',' (l.map numberNat)) = l.map numberNat := by
  apply split_join
  intro s hs
  obtain ⟨n, _, rfl⟩ := List.mem_map.mp hs
  exact ⟨numberNat_ne_nil n, comma_not_mem_numberNat n⟩

theorem map_toInt_numbers (l : List Nat) (h : ∀ n ∈ l, n < 2 ^ 31) :
    (l.map numberNat).map toInt = l.map Int.ofNat := by
  rw [List.map_map]
  apply List.map_congr_left
  intro n hn
  simpa using toInt_numberNat n (h n hn)

theorem QMap.value_insert_self (m : QMap) (k v : QString) : (m.insert k v).value k = v := by
  simp [QMap.insert, QMap.value]

theorem QMap.value_insert_of_ne (m : QMap) (k k' v : QString) (h : k' ≠ k) :
    (m.insert k v).value k' = m.value k' := by
  have hfind : ∀ l : QMap, (l.filter fun e => e.1 ≠ k).find? (fun e => e.1 = k') =
      l.find? (fun e => e.1 = k') := by
    intro l
    rw [List.find?_filter]
    congr 1
    funext e
    by_cases hek' : e.1 = k'
    · simp [hek', h]
    · simp [hek']
  have hk : k ≠ k' := fun e => h e.symm
  simp only [QMap.insert, QMap.value]
  rw [List.find?_cons_of_neg _ (by simpa using hk), hfind]


/-! ## Persisted preview chunks -/

theorem loadChunksCalls_append (a b : List Call) :
    loadChunksCalls (a ++ b) = loadChunksCalls a ++ loadChunksCalls b := by
  induction a with
  | nil => rfl
  | cons c t ih =>
    cases c with
    | preview op => cases op <;> simp [loadChunksCalls, ih]
    | _ => simp [loadChunksCalls, ih]

theorem documentProperties_chunks (E : Env W) (r : Run W)
    (hp : r.ctl.m_timelinePreview = true) :
    (documentProperties E r).value "previewchunks".toList
        = join ',' (E.previewChunks r.world).1 ∧
      (documentProperties E r).value "dirtypreviewchunks".toList
        = join ',' (E.previewChunks r.world).2 := by
  unfold documentProperties
  simp only [hp, if_true]
  constructor
  · rw [QMap.value_insert_of_ne _ _ _ _ (by decide), QMap.value_insert_of_ne _ _ _ _ (by decide),
      QMap.value_insert_self]
  · rw [QMap.value_insert_of_ne _ _ _ _ (by decide), QMap.value_insert_self]

theorem initializePreview_loadChunksCalls (E : Env W) (r : Run W) :
    loadChunksCalls (initializePreview E r).trace = loadChunksCalls r.trace := by
  unfold initializePreview
  simp only [Run.call, Run.log, Run.modify]
  split_ifs <;> simp [loadChunksCalls_append, loadChunksCalls]

theorem initializePreview_of_absent (E : Env W) (r : Run W)
    (hp : r.ctl.m_timelinePreview = false) :
    (initializePreview E r).ctl.m_timelinePreview
      = (E.previewInitialize (E.previewCreate r.world)).1 := by
  unfold initializePreview
  simp only [Run.call, Run.log, Run.modify, hp]
  split_ifs <;> simp_all

theorem loadPreview_spec (E : Env W) (chunks dirty : QString) (documentDate : QDateTime)
    (enable : Int) (r : Run W)
    (hmgr : r.ctl.m_timelinePreview = true
      ∨ (E.previewInitialize (E.previewCreate r.world)).1 = true) :
    ∃ out w0, loadPreview E chunks dirty documentDate enable r = some out
      ∧ loadChunksCalls out.trace = loadChunksCalls r.trace
          ++ [((split ',' chunks).map toInt, (split ',' dirty).map toInt, documentDate)]
      ∧ out.world
          = E.loadChunks w0 ((split ',' chunks).map toInt) ((split ',' dirty).map toInt)
              documentDate := by
  have key : ∃ r1 : Run W, r1.ctl.m_timelinePreview = true
      ∧ loadChunksCalls r1.trace = loadChunksCalls r.trace
      ∧ (if !r.ctl.m_timelinePreview then initializePreview E r else r) = r1 := by
    cases hp : r.ctl.m_timelinePreview with
    | true => exact ⟨r, hp, rfl, by simp⟩
    | false =>
      refine ⟨initializePreview E r, ?_, initializePreview_loadChunksCalls E r, by simp⟩
      rw [initializePreview_of_absent E r hp]
      rcases hmgr with h | h
      · rw [hp] at h; exact absurd h (by decide)
      · exact h
  obtain ⟨r1, hr1, htr, heq⟩ := key
  unfold loadPreview
  simp only [heq, Run.modify, hr1, Run.call]
  by_cases hen : enable = 0
  · simp only [hen, if_true, Bool.not_true, Bool.false_eq_true, if_false]
    exact ⟨_, _, rfl, by simp [loadChunksCalls_append, loadChunksCalls, htr], rfl⟩
  · simp only [hen, if_false, Bool.not_true, Bool.false_eq_true]
    exact ⟨_, _, rfl, by simp [loadChunksCalls_append, loadChunksCalls, htr], rfl⟩

/-- C1: round trip of the preview chunk lists.  When the preview manager reports the
rendered frames `R` and the dirty frames `D` (non-negative `int` values, so below `2^31`) as
decimal strings, the strings that `documentProperties` stores under `previewchunks` and
`dirtypreviewchunks` make `loadPreview`, run in any state where a preview manager exists or
can be set up, return normally after exactly one new `loadChunks` request, which carries
exactly `R` and exactly `D`, in the same order. -/
theorem previewChunks_roundtrip (E : Env W) (R D : List Nat)
    (hR : ∀ n ∈ R, n < 2 ^ 31) (hD : ∀ n ∈ D, n < 2 ^ 31)
    (r : Run W) (hp : r.ctl.m_timelinePreview = true)
    (hchunks : E.previewChunks r.world
      = (R.map fun n => number (Int.ofNat n), D.map fun n => number (Int.ofNat n)))
    (documentDate : QDateTime) (enable : Int) (r' : Run W)
    (hmgr : r'.ctl.m_timelinePreview = true
      ∨ (E.previewInitialize (E.previewCreate r'.world)).1 = true) :
    ∃ out w0,
      loadPreview E ((documentProperties E r).value "previewchunks".toList)
          ((documentProperties E r).value "dirtypreviewchunks".toList) documentDate enable r'
        = some out
      ∧ loadChunksCalls out.trace
          = loadChunksCalls r'.trace ++ [(R.map Int.ofNat, D.map Int.ofNat, documentDate)]
      ∧ out.world = E.loadChunks w0 (R.map Int.ofNat) (D.map Int.ofNat) documentDate := by
  obtain ⟨h1, h2⟩ := documentProperties_chunks E r hp
  have hnum : (fun n : Nat => number (Int.ofNat n)) = numberNat := rfl
  rw [hchunks, hnum] at h1 h2
  simp only at h1 h2
  have e1 := map_toInt_numbers R hR
  have e2 := map_toInt_numbers D hD
  have s1 := split_join_numbers R
  have s2 := split_join_numbers D
  obtain ⟨out, w0, ho, ht, hw⟩ := loadPreview_spec E
    ((documentProperties E r).value "previewchunks".toList)
    ((documentProperties E r).value "dirtypreviewchunks".toList) documentDate enable r' hmgr
  rw [h1, h2, s1, s2, e1, e2] at ht hw
  exact ⟨out, w0, ho, ht, hw⟩

theorem previewChunks_roundtrip_witness :
    (∀ n ∈ [0, 25], n < 2 ^ 31) ∧ (∀ n ∈ [50], n < 2 ^ 31)
      ∧ Run.rendered.ctl.m_timelinePreview = true
      ∧ Run.fresh.ctl.m_timelinePreview = false
      ∧ ∃ out w0,
        loadPreview Timeline.env
            ((documentProperties Timeline.env Run.rendered).value "previewchunks".toList)
            ((documentProperties Timeline.env Run.rendered).value "dirtypreviewchunks".toList)
            none 0 Run.fresh
          = some out
        ∧ loadChunksCalls out.trace
            = loadChunksCalls Run.fresh.trace
              ++ [([0, 25].map Int.ofNat, [50].map Int.ofNat, none)]
        ∧ out.world
            = Timeline.env.loadChunks w0 ([0, 25].map Int.ofNat) ([50].map Int.ofNat) none :=
  ⟨by decide, by decide, rfl, rfl,
    previewChunks_roundtrip Timeline.env [0, 25] [50] (by decide) (by decide) Run.rendered rfl
      (by decide) none 0 Run.fresh (Or.inr (by decide))⟩

/-! ## Selection -/

theorem groupAndNotify_ctl (E : Env W) (r : Run W) : (groupAndNotify E r).ctl = r.ctl := by
  unfold groupAndNotify emitSelectedFromSelection
  simp only [Run.call, Run.log]
  split_ifs <;> rfl

/-- C2, as the code has it: in every controller state where `selection()` returns the
stored selected clips (the root item is set, or nothing is selected), after
`setSelection(newSelection, trackIndex, isMultitrack)` the stored selection is exactly
`selectedClips = newSelection`, `selectedTrack = trackIndex` and
`isMultitrackSelected = isMultitrack`. -/
theorem setSelection_stores (E : Env W) (newSelection : List Int) (trackIndex : Int)
    (isMultitrack : Bool) (r : Run W)
    (hsel : selection r.ctl = r.ctl.m_selection.selectedClips) :
    (setSelection E newSelection trackIndex isMultitrack r).ctl.m_selection
      = { selectedClips := newSelection, selectedTrack := trackIndex,
          isMultitrackSelected := isMultitrack } := by
  unfold setSelection
  split_ifs with hc
  · rw [groupAndNotify_ctl]
    rfl
  · simp only [not_or, not_not] at hc
    obtain ⟨h1, h2, h3⟩ := hc
    rw [hsel] at h1
    cases hs : r.ctl.m_selection with
    | mk clips track multi =>
      rw [hs] at h1 h2 h3
      simp only at h1 h2 h3
      rw [h1, h2, h3]

theorem setSelection_stores_witness :
    selection Run.ready.ctl = Run.ready.ctl.m_selection.selectedClips
      ∧ (setSelection Timeline.env [1, 2] 1 false Run.ready).ctl.m_selection
          = { selectedClips := [1, 2], selectedTrack := 1, isMultitrackSelected := false } :=
  ⟨by decide, setSelection_stores Timeline.env [1, 2] 1 false Run.ready (by decide)⟩

/-- C2 fails as stated: on a controller whose root item is not set yet, `addSelection(5)`
followed by `setSelection([], -1, false)` leaves clip 5 selected, because `selection()`
answers with the empty list while the root is null and the call sees nothing to change. -/
theorem setSelection_not_rebuilt_without_root :
    (addSelection Timeline.env 5 Run.fresh).ctl.m_root = false
      ∧ (setSelection Timeline.env [] (-1) false
            (addSelection Timeline.env 5 Run.fresh)).ctl.m_selection
          = { selectedClips := [5], selectedTrack := -1, isMultitrackSelected := false }
      ∧ (setSelection Timeline.env [] (-1) false
            (addSelection Timeline.env 5 Run.fresh)).ctl.m_selection
          ≠ { selectedClips := [], selectedTrack := -1, isMultitrackSelected := false } := by
  decide

/-- C4 fails on `loadPreview`: on a freshly constructed controller, `loadPreview("", "",
QDateTime(), 0)` sets up the preview manager and builds its preview track, so the manager
counts one injected track, while `m_overlayTrackCount` still holds 0.  The sibling path
`startPreviewRender`, run on the same controller, stores the manager's count after building
the track. -/
theorem loadPreview_leaves_overlayTrackCount_stale :
    (∃ out, loadPreview Timeline.env [] [] none 0 Run.fresh = some out
        ∧ out.ctl.m_timelinePreview = true
        ∧ out.ctl.overlayTrackCount = 0
        ∧ Timeline.env.addedTracks out.world = 1)
      ∧ (∃ out, startPreviewRender Timeline.env Run.fresh = some out
        ∧ out.ctl.m_timelinePreview = true
        ∧ out.ctl.overlayTrackCount = 1
        ∧ Timeline.env.addedTracks out.world = 1) :=
  ⟨⟨_, rfl, by decide, by decide, by decide⟩, ⟨_, rfl, by decide, by decide, by decide⟩⟩

/-! ## Spacer -/

theorem wrapInt32_of_range (i : Int) (h : -2147483648 ≤ i ∧ i ≤ 2147483647) :
    wrapInt32 i = i := by
  unfold wrapInt32
  omega

/-- C5, as the code has it: `insertSpace` consumes exactly the dialog's two values.  With
`fr` the frame (the playhead when `frame = -1`) and `tid` the track passed on (`-1` when
the dialog's affect-all-tracks flag is set, the requested or else the current track
otherwise): a dialog that is not accepted leaves controller, collaborators and trace
untouched; an accepted one issues the spacer start operation at `(tid, fr)`; when that
returns an anchor `cid ≠ -1` whose position is `s`, exactly one spacer end operation
follows, with the start `s` and the new start `s + d` as a 32-bit `int` holds it, `d` being
the dialog's duration in frames; and when `s + d` fits the `int` range that operation is
`(cid, s, s + d)`, a shift of exactly `d`. -/
theorem insertSpace_consumes_dialog (E : Env W) (d : SpacerDialog) (trackId frame : Int)
    (r : Run W) (tid fr cid s : Int) (w1 : W)
    (htid : tid = if d.affectAllTracks then -1
      else if trackId = -1 then E.currentTrackId r.world else trackId)
    (hfr : fr = if frame = -1 then r.ctl.m_position else frame)
    (hst : E.requestSpacerStartOperation r.world tid fr = (cid, w1))
    (hs : s = E.getItemPosition w1 cid) :
    (d.accepted = false → insertSpace E d trackId frame r = r)
      ∧ (d.accepted = true → ∃ rest, (insertSpace E d trackId frame r).trace
          = r.trace ++ Call.requestSpacerStartOperation tid fr :: rest)
      ∧ (d.accepted = true → cid ≠ -1 →
          insertSpace E d trackId frame r =
            { ctl := r.ctl
              world := (E.requestSpacerEndOperation w1 cid s
                (wrapInt32 (s + d.selectedFrames))).2
              trace := r.trace ++ [Call.requestSpacerStartOperation tid fr,
                Call.requestSpacerEndOperation cid s (wrapInt32 (s + d.selectedFrames))] })
      ∧ (d.accepted = true → cid ≠ -1 →
          -2147483648 ≤ s + d.selectedFrames ∧ s + d.selectedFrames ≤ 2147483647 →
          insertSpace E d trackId frame r =
            { ctl := r.ctl
              world := (E.requestSpacerEndOperation w1 cid s (s + d.selectedFrames)).2
              trace := r.trace ++ [Call.requestSpacerStartOperation tid fr,
                Call.requestSpacerEndOperation cid s (s + d.selectedFrames)] }
          ∧ (s + d.selectedFrames) - s = d.selectedFrames) := by
  subst htid hfr hs
  have hanchor : d.accepted = true → cid ≠ -1 →
      insertSpace E d trackId frame r =
        { ctl := r.ctl
          world := (E.requestSpacerEndOperation w1 cid (E.getItemPosition w1 cid)
            (wrapInt32 (E.getItemPosition w1 cid + d.selectedFrames))).2
          trace := r.trace ++ [Call.requestSpacerStartOperation
              (if d.affectAllTracks then -1
                else if trackId = -1 then E.currentTrackId r.world else trackId)
              (if frame = -1 then r.ctl.m_position else frame),
            Call.requestSpacerEndOperation cid (E.getItemPosition w1 cid)
              (wrapInt32 (E.getItemPosition w1 cid + d.selectedFrames))] } := by
    intro h hcid
    simp [insertSpace, requestSpacerStartOperation, requestSpacerEndOperation, h, hst, hcid,
      Run.call]
  refine ⟨?_, ?_, hanchor, ?_⟩
  · intro h
    simp [insertSpace, h]
  · intro h
    by_cases hcid : cid = -1
    · exact ⟨[Call.displayMessage noClipsMessage], by
        simp [insertSpace, requestSpacerStartOperation, h, hst, hcid, Run.call, Run.log]⟩
    · exact ⟨[Call.requestSpacerEndOperation cid (E.getItemPosition w1 cid)
          (wrapInt32 (E.getItemPosition w1 cid + d.selectedFrames))], by
        rw [hanchor h hcid]⟩
  · intro h hcid hrange
    refine ⟨?_, by omega⟩
    rw [hanchor h hcid, wrapInt32_of_range _ hrange]

theorem insertSpace_consumes_dialog_witness :
    (Timeline.env.requestSpacerStartOperation Run.ready.world 1 120 = (2, Timeline.scenario))
      ∧ (150 : Int) = Timeline.env.getItemPosition Timeline.scenario 2
      ∧ ((-2147483648 : Int) ≤ 150 + 30 ∧ (150 : Int) + 30 ≤ 2147483647)
      ∧ insertSpace Timeline.env ⟨true, false, 30⟩ (-1) 120 Run.ready =
          { ctl := Run.ready.ctl
            world := (Timeline.env.requestSpacerEndOperation Timeline.scenario 2 150
              (150 + 30)).2
            trace := Run.ready.trace ++ [Call.requestSpacerStartOperation 1 120,
              Call.requestSpacerEndOperation 2 150 (150 + 30)] } :=
  ⟨by decide, by decide, by decide,
    ((insertSpace_consumes_dialog Timeline.env ⟨true, false, 30⟩ (-1) 120 Run.ready
      1 120 2 150 Timeline.scenario (by decide) (by decide) (by decide) (by decide)).2.2.2
        rfl (by decide) (by decide)).1⟩

/-- C5 fails as stated when `s + d` leaves the `int` range: on a timeline whose item starts
at frame 2147483600, `insertSpace` with an accepted dialog of 100 frames gets that item as
the anchor and issues the spacer end operation `(1, 2147483600, -2147483596)`, where the
claim has the new start `2147483600 + 100`; the requested shift is not 100. -/
theorem insertSpace_sum_wraps :
    Timeline.env.requestSpacerStartOperation Run.farEnd.world 1 0 = (1, Run.farEnd.world)
      ∧ Timeline.env.getItemPosition Run.farEnd.world 1 = 2147483600
      ∧ (insertSpace Timeline.env ⟨true, false, 100⟩ 1 0 Run.farEnd).trace
          = [Call.requestSpacerStartOperation 1 0,
              Call.requestSpacerEndOperation 1 2147483600 (-2147483596)]
      ∧ (-2147483596 : Int) ≠ 2147483600 + 100
      ∧ (-2147483596 : Int) - 2147483600 ≠ 100 := by
  decide

/-- C6: nothing to space means nothing moves.  When the spacer start operation, asked at
the frame `fr` (the playhead when `frame = -1`) on the track `tid` the method passes on,
returns `-1`, both `insertSpace` (dialog accepted) and `removeSpace` stop there: after the
start operation the only entry added to the trace is the message shown to the user, the
collaborators are in the state the start operation left them in, and the controller is
unchanged.  No spacer end operation is issued. -/
theorem nothing_to_space (E : Env W) (trackId frame : Int) (r : Run W) (tid fr : Int) (w1 : W)
    (hfr : fr = if frame = -1 then r.ctl.m_position else frame)
    (hst : E.requestSpacerStartOperation r.world tid fr = (-1, w1)) :
    (∀ d : SpacerDialog, d.accepted = true →
        tid = (if d.affectAllTracks then -1
          else if trackId = -1 then E.currentTrackId r.world else trackId) →
        insertSpace E d trackId frame r =
          { ctl := r.ctl, world := w1
            trace := r.trace ++ [Call.requestSpacerStartOperation tid fr,
              Call.displayMessage noClipsMessage] })
      ∧ (∀ affectAllTracks : Bool,
        tid = (if affectAllTracks then -1
          else if trackId = -1 then E.currentTrackId r.world else trackId) →
        removeSpace E trackId frame affectAllTracks r =
          { ctl := r.ctl, world := w1
            trace := r.trace ++ [Call.requestSpacerStartOperation tid fr,
              Call.displayMessage noClipsMessage] }) := by
  subst hfr
  constructor
  · intro d h htid
    subst htid
    simp [insertSpace, requestSpacerStartOperation, h, hst, Run.call, Run.log]
  · intro affectAllTracks htid
    subst htid
    simp [removeSpace, requestSpacerStartOperation, hst, Run.call, Run.log]

theorem nothing_to_space_witness :
    Timeline.env.requestSpacerStartOperation Run.ready.world 1 220 = (-1, Timeline.scenario)
      ∧ insertSpace Timeline.env ⟨true, false, 30⟩ 1 220 Run.ready =
          { ctl := Run.ready.ctl, world := Timeline.scenario
            trace := Run.ready.trace ++ [Call.requestSpacerStartOperation 1 220,
              Call.displayMessage noClipsMessage] }
      ∧ removeSpace Timeline.env 1 220 false Run.ready =
          { ctl := Run.ready.ctl, world := Timeline.scenario
            trace := Run.ready.trace ++ [Call.requestSpacerStartOperation 1 220,
              Call.displayMessage noClipsMessage] } :=
  ⟨by decide,
    (nothing_to_space Timeline.env 1 220 Run.ready 1 220 Timeline.scenario (by decide)
      (by decide)).1 ⟨true, false, 30⟩ rfl (by decide),
    (nothing_to_space Timeline.env 1 220 Run.ready 1 220 Timeline.scenario (by decide)
      (by decide)).2 false (by decide)⟩

/-- C9: `removeSpace` closes exactly the gap at the frame.  With `fr` the frame (the
playhead when `frame = -1`), `trk` the given (or current) track, `b` the blank size of `trk`
at `fr`, and `cid ≠ -1` the anchor returned by the spacer start operation, whose position
is `s`: the method issues the start operation and then exactly one spacer end operation
`(cid, s, s - b)`.  The requested shift is `-b`, and it is `0` when `b = 0`. -/
theorem removeSpace_closes_gap (E : Env W) (trackId frame : Int) (affectAllTracks : Bool)
    (r : Run W) (trk fr b cid s : Int) (w1 : W)
    (htrk : trk = if trackId = -1 then E.currentTrackId r.world else trackId)
    (hfr : fr = if frame = -1 then r.ctl.m_position else frame)
    (hb : b = E.getBlankSizeAtPos r.world trk fr)
    (hst : E.requestSpacerStartOperation r.world (if affectAllTracks then -1 else trk) fr
      = (cid, w1))
    (hs : s = E.getItemPosition w1 cid)
    (hcid : cid ≠ -1) :
    removeSpace E trackId frame affectAllTracks r =
        { ctl := r.ctl
          world := (E.requestSpacerEndOperation w1 cid s (s - b)).2
          trace := r.trace ++
            [Call.requestSpacerStartOperation (if affectAllTracks then -1 else trk) fr,
              Call.requestSpacerEndOperation cid s (s - b)] }
      ∧ (s - b) - s = -b
      ∧ (b = 0 → (s - b) - s = 0) := by
  subst htrk hfr hb hs
  refine ⟨?_, by omega, fun h => by omega⟩
  simp [removeSpace, requestSpacerStartOperation, requestSpacerEndOperation, hst, hcid,
    Run.call]

theorem removeSpace_closes_gap_witness :
    (50 : Int) = Timeline.env.getBlankSizeAtPos Run.ready.world 1 120
      ∧ Timeline.env.requestSpacerStartOperation Run.ready.world 1 120 = (2, Timeline.scenario)
      ∧ removeSpace Timeline.env (-1) 120 false Run.ready =
          { ctl := Run.ready.ctl
            world := (Timeline.env.requestSpacerEndOperation Timeline.scenario 2 150
              (150 - 50)).2
            trace := Run.ready.trace ++ [Call.requestSpacerStartOperation 1 120,
              Call.requestSpacerEndOperation 2 150 (150 - 50)] } :=
  ⟨by decide, by decide,
    (removeSpace_closes_gap Timeline.env (-1) 120 false Run.ready 1 120 50 2 150
      Timeline.scenario (by decide) (by decide) (by decide) (by decide) (by decide)
      (by decide)).1⟩

/-! ## Duration -/

/-- C7: the cached timeline duration follows the model.  After `checkDuration`,
`duration()` equals the model's duration; the call adds `durationChanged` to the trace when
the model's duration differed from the cached value and adds nothing otherwise; and a
second call, made without an intervening model change, does nothing at all. -/
theorem checkDuration_follows_model (E : Env W) (r : Run W) :
    duration (checkDuration E r).ctl = E.duration (checkDuration E r).world
      ∧ (checkDuration E r).world = r.world
      ∧ (checkDuration E r).trace
          = r.trace ++ (if E.duration r.world ≠ duration r.ctl
              then [Call.emitSignal Signal.durationChanged] else [])
      ∧ (Call.emitSignal Signal.durationChanged ∈
            (checkDuration E r).trace.drop r.trace.length
          ↔ E.duration r.world ≠ duration r.ctl)
      ∧ checkDuration E (checkDuration E r) = checkDuration E r := by
  by_cases h : E.duration r.world = r.ctl.m_duration
  · simp [checkDuration, duration, h]
  · simp [checkDuration, duration, h, Run.modify, Run.log]

/-! ## Insertion -/

/-- C8: insertion failures are reported as values.  `insertClip` and `insertComposition`
issue one insertion request each and return the id the model left in the output variable
when the request succeeded, and `-1` when it failed, whatever that variable holds. -/
theorem insert_reports_failure (E : Env W) (tid position : Int) (binData : QString)
    (logUndo : Bool) (r : Run W) :
    (insertClip E tid position binData logUndo r).1
        = (if (E.requestClipInsertion r.world binData
              (if tid = -1 then E.currentTrackId r.world else tid)
              (if position = -1 then r.ctl.m_position else position) logUndo).1 = true
            then (E.requestClipInsertion r.world binData
              (if tid = -1 then E.currentTrackId r.world else tid)
              (if position = -1 then r.ctl.m_position else position) logUndo).2.1
            else -1)
      ∧ (insertClip E tid position binData logUndo r).2.trace
        = r.trace ++ [Call.requestClipInsertion binData
            (if tid = -1 then E.currentTrackId r.world else tid)
            (if position = -1 then r.ctl.m_position else position) logUndo]
      ∧ (insertComposition E tid position binData logUndo r).1
        = (if (E.requestCompositionInsertion r.world binData tid position 100 logUndo).1 = true
            then (E.requestCompositionInsertion r.world binData tid position 100 logUndo).2.1
            else -1)
      ∧ (insertComposition E tid position binData logUndo r).2.trace
        = r.trace ++ [Call.requestCompositionInsertion binData tid position 100 logUndo] := by
  refine ⟨?_, rfl, ?_, rfl⟩
  · simp only [insertClip]
    cases (E.requestClipInsertion r.world binData
      (if tid = -1 then E.currentTrackId r.world else tid)
      (if position = -1 then r.ctl.m_position else position) logUndo).1 <;> simp
  · simp only [insertComposition]
    cases (E.requestCompositionInsertion r.world binData tid position 100 logUndo).1 <;> simp

/-! ## Cutting -/

theorem scenario_blankSizeAt :
    Timeline.scenario.blankSizeAt 1 100 = 50 ∧ Timeline.scenario.blankSizeAt 1 120 = 50
      ∧ Timeline.scenario.blankSizeAt 1 20 = 0 := by
  decide

theorem scenario_spacerStart :
    Timeline.scenario.spacerStart 1 120 = 2 ∧ Timeline.scenario.spacerStart (-1) 220 = -1 := by
  decide

theorem scenario_cut_selected :
    (cutClipUnderCursor Timeline.env 40 (-1)
        (setSelection Timeline.env [1] 1 false Run.ready)).trace
      = [Call.requestClipsGroup {1} true true, Call.emitSignal Signal.selectionChanged,
          Call.requestClipCut 1 40] := by
  decide

theorem toInt_examples :
    toInt " 120".toList = 120 ∧ toInt "-7".toList = -7 ∧ toInt "2147483647".toList = 2147483647
      ∧ toInt "2147483648".toList = 0 ∧ toInt "12a".toList = 0 := by
  decide

theorem split_examples :
    split ',' "0,25,,50".toList = ["0".toList, "25".toList, "50".toList]
      ∧ split ',' [] = [] ∧ join ',' [number 0, number 25] = "0,25".toList := by
  decide

/-! ## Ungrouping -/

theorem find?_first {α : Type} (p : α → Bool) (pre : List α) (a : α) (post : List α)
    (hpre : ∀ x ∈ pre, p x = false) (ha : p a = true) :
    (pre ++ a :: post).find? p = some a := by
  induction pre with
  | nil => simp [List.find?, ha]
  | cons x xs ih =>
    have hx : p x = false := hpre x (List.mem_cons_self _ _)
    simp only [List.cons_append, List.find?, hx]
    exact ih fun y hy => hpre y (List.mem_cons_of_mem _ hy)

/-- C11: `unGroupSelection(cid)` issues at most one ungroup request.  For `cid > -1` it
requests the ungrouping of `cid`; for `cid = -1` it requests the ungrouping of the first
selected id that is in a group and not in the model's temporary selection group (an item
id, hence `> -1`).  A request comes with the clearing of the selected clips and the
`selectionChanged` signal; when no request is issued (`cid = -1` with no eligible selected
id, which includes the empty selection, or `cid < -1`) nothing changes at all. -/
theorem unGroupSelection_requests (E : Env W) (cid : Int) (r : Run W) :
    (-1 < cid → unGroupSelection E cid r = ungrouped E cid r)
      ∧ (cid = -1 → ∀ pre id post,
          r.ctl.m_selection.selectedClips = pre ++ id :: post →
          (∀ x ∈ pre,
            ¬ (E.isInGroup r.world x = true ∧ E.isInSelection r.world x = false)) →
          E.isInGroup r.world id = true → E.isInSelection r.world id = false →
          -1 < id →
          unGroupSelection E cid r = ungrouped E id r)
      ∧ (cid = -1 →
          (∀ x ∈ r.ctl.m_selection.selectedClips,
            ¬ (E.isInGroup r.world x = true ∧ E.isInSelection r.world x = false)) →
          unGroupSelection E cid r = r)
      ∧ (cid < -1 → unGroupSelection E cid r = r) := by
  refine ⟨?_, ?_, ?_, ?_⟩
  · intro h
    have hne : cid ≠ -1 := by omega
    simp [unGroupSelection, ungrouped, hne, h, Run.call, Run.modify, Run.log]
  · intro hcid pre id post hsel hpre hgrp hnsel hid
    subst hcid
    have hfind : r.ctl.m_selection.selectedClips.find?
        (fun id => E.isInGroup r.world id && !E.isInSelection r.world id) = some id := by
      rw [hsel]
      apply find?_first
      · intro x hx
        have := hpre x hx
        cases h1 : E.isInGroup r.world x <;> cases h2 : E.isInSelection r.world x <;> simp_all
      · simp [hgrp, hnsel]
    have hne : r.ctl.m_selection.selectedClips.isEmpty = false := by
      rw [hsel]; cases pre <;> rfl
    simp [unGroupSelection, ungrouped, hfind, hne, hid, Run.call, Run.modify, Run.log]
  · intro hcid hnone
    subst hcid
    have hfind : r.ctl.m_selection.selectedClips.find?
        (fun id => E.isInGroup r.world id && !E.isInSelection r.world id) = none := by
      apply List.find?_eq_none.mpr
      intro x hx
      have := hnone x hx
      cases h1 : E.isInGroup r.world x <;> cases h2 : E.isInSelection r.world x <;> simp_all
    simp [unGroupSelection, hfind]
  · intro h
    have hne : cid ≠ -1 := by omega
    have hng : ¬ cid > -1 := by omega
    simp [unGroupSelection, hne, hng]

theorem unGroupSelection_requests_witness :
    Run.grouped.ctl.m_selection.selectedClips = [] ++ 1 :: []
      ∧ Timeline.env.isInGroup Run.grouped.world 1 = true
      ∧ Timeline.env.isInSelection Run.grouped.world 1 = false
      ∧ unGroupSelection Timeline.env (-1) Run.grouped = ungrouped Timeline.env 1 Run.grouped
      ∧ unGroupSelection Timeline.env 2 Run.grouped = ungrouped Timeline.env 2 Run.grouped
      ∧ unGroupSelection Timeline.env (-1) Run.ready = Run.ready
      ∧ unGroupSelection Timeline.env (-2) Run.grouped = Run.grouped :=
  ⟨rfl, by decide, by decide,
    (unGroupSelection_requests Timeline.env (-1) Run.grouped).2.1 rfl [] 1 [] rfl
      (by decide) (by decide) (by decide) (by decide),
    (unGroupSelection_requests Timeline.env 2 Run.grouped).1 (by decide),
    (unGroupSelection_requests Timeline.env (-1) Run.ready).2.2.1 rfl (by decide),
    (unGroupSelection_requests Timeline.env (-2) Run.grouped).2.2.2 (by decide)⟩

/-! ## In and out points -/

theorem mem_foldl_union {α : Type} (f : α → Finset Int) (l : List α) (init : Finset Int)
    (x : Int) :
    x ∈ l.foldl (fun acc a => acc ∪ f a) init ↔ x ∈ init ∨ ∃ a ∈ l, x ∈ f a := by
  induction l generalizing init with
  | nil => simp
  | cons a t ih =>
    simp only [List.foldl_cons, ih, Finset.mem_union, List.mem_cons, exists_eq_or_imp]
    tauto

/-- C13: `selectItems(tracks, startFrame, endFrame)` replaces the selection.  Afterwards an
id is selected exactly when one of the listed tracks reports it for the range
`(startFrame, endFrame)`, so nothing selected before survives outside that union; no id
occurs twice; the selected track and the multitrack flag are unchanged. -/
theorem selectItems_replaces (E : Env W) (arg : List Int) (startFrame endFrame : Int)
    (r : Run W) :
    (∀ x, x ∈ (selectItems E arg startFrame endFrame r).ctl.m_selection.selectedClips
        ↔ ∃ tid ∈ arg, x ∈ E.getClipsAfterPosition r.world tid startFrame endFrame)
      ∧ (selectItems E arg startFrame endFrame r).ctl.m_selection.selectedClips.Nodup
      ∧ (selectItems E arg startFrame endFrame r).ctl.m_selection.selectedTrack
        = r.ctl.m_selection.selectedTrack
      ∧ (selectItems E arg startFrame endFrame r).ctl.m_selection.isMultitrackSelected
        = r.ctl.m_selection.isMultitrackSelected := by
  refine ⟨?_, ?_, rfl, rfl⟩
  · intro x
    simp [selectItems, Run.call, Run.log, Run.modify, E.mem_iterate, clipsToSelect,
      mem_foldl_union]
  · simp only [selectItems, Run.call, Run.log, Run.modify, List.nil_append]
    exact E.iterate_nodup _

/-! ## Seeking -/

/-- C16: seek bookkeeping.  `setPosition(p)` records `p` as the pending seek position and
leaves the playhead alone; `onSeeked(q)` sets the playhead to `q` and resets the pending
seek position to `-1` when it was `≥ 0` and equal to `q`, leaving it as it was otherwise.
Hence for every `p ≥ 0`, `setPosition(p)` followed by `onSeeked(p)` ends with the playhead
at `p` and no pending seek. -/
theorem seek_bookkeeping (r : Run W) :
    (∀ p, (setPosition p r).ctl.m_seekPosition = p
        ∧ (setPosition p r).ctl.m_position = r.ctl.m_position)
      ∧ (∀ q, (onSeeked q r).ctl.m_position = q
        ∧ (onSeeked q r).ctl.m_seekPosition
          = if 0 ≤ r.ctl.m_seekPosition ∧ r.ctl.m_seekPosition = q then -1
            else r.ctl.m_seekPosition)
      ∧ (∀ p, 0 ≤ p → (onSeeked p (setPosition p r)).ctl.m_position = p
        ∧ (onSeeked p (setPosition p r)).ctl.m_seekPosition = -1) := by
  refine ⟨fun p => ⟨rfl, rfl⟩, ?_, ?_⟩
  · intro q
    simp only [onSeeked, Run.modify, Run.log]
    by_cases h : r.ctl.m_seekPosition > -1 ∧ q = r.ctl.m_seekPosition
    · have h' : 0 ≤ r.ctl.m_seekPosition ∧ r.ctl.m_seekPosition = q := by omega
      rw [if_pos h, if_pos h']
      exact ⟨rfl, rfl⟩
    · have h' : ¬ (0 ≤ r.ctl.m_seekPosition ∧ r.ctl.m_seekPosition = q) := by omega
      rw [if_neg h, if_neg h']
      exact ⟨rfl, rfl⟩
  · intro p hp
    have h : p > -1 := by omega
    simp [onSeeked, setPosition, setSeekPosition, Run.modify, Run.log, h]

theorem seek_bookkeeping_witness :
    (0 : Int) ≤ 42
      ∧ (onSeeked 42 (setPosition 42 Run.ready)).ctl.m_position = 42
      ∧ (onSeeked 42 (setPosition 42 Run.ready)).ctl.m_seekPosition = -1 :=
  ⟨by decide, (seek_bookkeeping Run.ready).2.2 42 (by decide)⟩

/-! ## Closing a gap never moves the anchor before frame 0 -/

theorem firstByPosition_mem (l : List Item) (it : Item) (h : firstByPosition l = some it) :
    it ∈ l := by
  induction l generalizing it with
  | nil => simp [firstByPosition] at h
  | cons x xs ih =>
    unfold firstByPosition at h
    cases hr : firstByPosition xs with
    | none =>
      rw [hr] at h
      simp only [Option.some.injEq] at h
      exact h ▸ List.mem_cons_self _ _
    | some best =>
      rw [hr] at h
      simp only at h
      split_ifs at h
      · simp only [Option.some.injEq] at h
        exact List.mem_cons_of_mem _ (ih _ (h ▸ hr))
      · simp only [Option.some.injEq] at h
        exact h ▸ List.mem_cons_self _ _

theorem find?_id_of_mem (l : List Item) (it : Item) (huniq : (l.map fun x => x.id).Nodup)
    (hmem : it ∈ l) : l.find? (fun x => decide (x.id = it.id)) = some it := by
  induction l with
  | nil => simp at hmem
  | cons x xs ih =>
    simp only [List.map_cons, List.nodup_cons] at huniq
    rcases List.mem_cons.mp hmem with h | h
    · subst h
      simp [List.find?]
    · have hne : x.id ≠ it.id := by
        intro e
        exact huniq.1 (e ▸ List.mem_map_of_mem (fun x => x.id) h)
      simp only [List.find?, hne, decide_False]
      exact ih huniq.2 h

theorem le_foldl_max (f : Item → Int) (l : List Item) (a : Int) :
    a ≤ l.foldl (fun acc it => max acc (f it)) a := by
  induction l generalizing a with
  | nil => simp
  | cons x xs ih =>
    simp only [List.foldl_cons]
    exact le_trans (le_max_left _ _) (ih _)

theorem firstByPosition_le (l : List Item) (best : Item) (h : firstByPosition l = some best) :
    ∀ x ∈ l, best.position ≤ x.position := by
  induction l generalizing best with
  | nil => simp [firstByPosition] at h
  | cons it rest ih =>
    unfold firstByPosition at h
    cases hr : firstByPosition rest with
    | none =>
      rw [hr] at h
      simp only [Option.some.injEq] at h
      subst h
      have hnil : rest = [] := by
        cases rest with
        | nil => rfl
        | cons y ys =>
          unfold firstByPosition at hr
          cases hy : firstByPosition ys with
          | none => rw [hy] at hr; cases hr
          | some b =>
            rw [hy] at hr
            simp only at hr
            split_ifs at hr
      intro x hx
      rw [hnil] at hx
      simp only [List.mem_singleton] at hx
      rw [hx]
    | some b =>
      rw [hr] at h
      simp only at h
      have hb := ih b hr
      intro x hx
      split_ifs at h with hlt
      · simp only [Option.some.injEq] at h
        subst h
        rcases List.mem_cons.mp hx with e | e
        · rw [e]; omega
        · exact hb x e
      · simp only [Option.some.injEq] at h
        subst h
        rcases List.mem_cons.mp hx with e | e
        · rw [e]
        · have := hb x e
          omega

theorem not_covered_of_clipAt (t : Timeline) (trk fr : Int)
    (hid : ∀ it ∈ t.items, 0 ≤ it.id) (hocc : t.clipAt trk fr = -1) :
    ∀ it ∈ t.items,
      ¬ (it.trackId = trk ∧ it.position ≤ fr ∧ fr < it.position + it.duration) := by
  unfold Timeline.clipAt at hocc
  cases hf : t.items.find? (fun it =>
      decide (it.trackId = trk ∧ it.position ≤ fr ∧ fr < it.position + it.duration)) with
  | none =>
    intro it hit
    simpa using List.find?_eq_none.mp hf it hit
  | some x =>
    rw [hf] at hocc
    simp only at hocc
    have := hid x (List.mem_of_find?_eq_some hf)
    omega

theorem anchor_minus_blank_nonneg (t : Timeline) (tid trk fr : Int)
    (hpos : ∀ it ∈ t.items, 0 ≤ it.position) (hdur : ∀ it ∈ t.items, 0 < it.duration)
    (hid : ∀ it ∈ t.items, 0 ≤ it.id)
    (huniq : (t.items.map fun x => x.id).Nodup)
    (hscope : tid = -1 ∨ tid = trk)
    (hon : ∀ it ∈ t.items, it.id = t.spacerStart tid fr → it.trackId = trk)
    (hcid : t.spacerStart tid fr ≠ -1) :
    0 ≤ t.itemPosition (t.spacerStart tid fr) - t.blankSizeAt trk fr := by
  unfold Timeline.spacerStart at hcid hon ⊢
  cases hA : firstByPosition (t.items.filter fun it =>
      (tid = -1 ∨ it.trackId = tid) ∧ fr ≤ it.position) with
  | none => rw [hA] at hcid; exact absurd rfl hcid
  | some anchor =>
    rw [hA] at hon
    simp only at hon ⊢
    have hmemf := List.mem_filter.mp (firstByPosition_mem _ _ hA)
    have hmem : anchor ∈ t.items := hmemf.1
    have hafr : fr ≤ anchor.position := by
      have := hmemf.2
      simp only [decide_eq_true_eq] at this
      exact this.2
    have hatrk : anchor.trackId = trk := hon anchor hmem rfl
    have hs : t.itemPosition anchor.id = anchor.position := by
      unfold Timeline.itemPosition
      rw [find?_id_of_mem t.items anchor huniq hmem]
    rw [hs]
    have hap := hpos anchor hmem
    unfold Timeline.blankSizeAt
    split_ifs with hocc
    · omega
    · simp only [ne_eq, not_not] at hocc
      cases hN : firstByPosition
          (t.items.filter fun it => it.trackId = trk ∧ fr < it.position) with
      | none => simp only; omega
      | some next =>
        simp only
        have hnmem := List.mem_filter.mp (firstByPosition_mem _ _ hN)
        have hnq := hnmem.2
        simp only [decide_eq_true_eq] at hnq
        have hcov := not_covered_of_clipAt t trk fr hid hocc anchor hmem
        have hd := hdur anchor hmem
        have hagt : fr < anchor.position := by
          by_contra hle
          exact hcov ⟨hatrk, by omega, by omega⟩
        have h1 : next.position ≤ anchor.position :=
          firstByPosition_le _ _ hN anchor
            (List.mem_filter.mpr ⟨hmem, by simp [hatrk, hagt]⟩)
        have h2 : anchor.position ≤ next.position :=
          firstByPosition_le _ _ hA next
            (List.mem_filter.mpr ⟨hnmem.1, by
              rcases hscope with e | e
              · simp [e]; omega
              · simp [e, hnq.1]; omega⟩)
        have := le_foldl_max (fun it => it.position + it.duration)
          (t.items.filter fun it => it.trackId = trk ∧ it.position + it.duration ≤ fr) 0
        omega

theorem anchor_on_track (t : Timeline) (trk fr : Int) (htrk : trk ≠ -1)
    (hid : ∀ it ∈ t.items, 0 ≤ it.id)
    (huniq : (t.items.map fun x => x.id).Nodup) :
    ∀ it ∈ t.items, it.id = t.spacerStart trk fr → it.trackId = trk := by
  intro it hit heq
  unfold Timeline.spacerStart at heq
  cases hA : firstByPosition (t.items.filter fun it =>
      (trk = -1 ∨ it.trackId = trk) ∧ fr ≤ it.position) with
  | none =>
    rw [hA] at heq
    simp only at heq
    have := hid it hit
    omega
  | some anchor =>
    rw [hA] at heq
    simp only at heq
    have hmemf := List.mem_filter.mp (firstByPosition_mem _ _ hA)
    have hsame : it = anchor := by
      have h1 := find?_id_of_mem t.items it huniq hit
      have h2 := find?_id_of_mem t.items anchor huniq hmemf.1
      rw [heq] at h1
      rw [h1] at h2
      exact Option.some.inj h2
    have := hmemf.2
    simp only [decide_eq_true_eq, htrk, false_or] at this
    rw [hsame]
    exact this.1

theorem itemPosition_anchor_nonneg (t : Timeline) (tid fr : Int)
    (hpos : ∀ it ∈ t.items, 0 ≤ it.position)
    (huniq : (t.items.map fun x => x.id).Nodup)
    (hcid : t.spacerStart tid fr ≠ -1) :
    0 ≤ t.itemPosition (t.spacerStart tid fr) := by
  unfold Timeline.spacerStart at hcid ⊢
  cases hA : firstByPosition (t.items.filter fun it =>
      (tid = -1 ∨ it.trackId = tid) ∧ fr ≤ it.position) with
  | none => rw [hA] at hcid; exact absurd rfl hcid
  | some anchor =>
    simp only
    have hmem : anchor ∈ t.items := (List.mem_filter.mp (firstByPosition_mem _ _ hA)).1
    unfold Timeline.itemPosition
    rw [find?_id_of_mem t.items anchor huniq hmem]
    exact hpos anchor hmem

theorem blankSizeAt_of_no_item (t : Timeline) (trk fr : Int)
    (hnone : ∀ it ∈ t.items, it.trackId ≠ trk) : t.blankSizeAt trk fr = 0 := by
  have hfilter :
      (t.items.filter fun it => decide (it.trackId = trk ∧ fr < it.position)) = [] := by
    apply List.filter_eq_nil_iff.mpr
    intro it hit
    simp [hnone it hit]
  unfold Timeline.blankSizeAt
  split_ifs
  · rfl
  · rw [hfilter]
    rfl

/-- C15, as the code has it: `removeSpace` never asks to move the anchor before frame 0
when the anchor lies on the given track, which is always so when `affectAllTracks` is not
set.  On every timeline whose items start at positions `≥ 0`, have a positive duration and
distinct non-negative ids (the track id `-1` standing for no track), with the spacer start
operation returning the first item that starts at or after the frame (on the given or
current track, or across all tracks) and with the blank size of the given track at the
frame, `removeSpace` issues the start operation and then either shows the message (no
anchor) or issues the end operation `(cid, s, s - b)` with `s - b ≥ 0`. -/
theorem removeSpace_anchor_not_before_zero (t : Timeline) (ctl : Controller)
    (trace : List Call) (trackId frame : Int) (affectAllTracks : Bool) (trk fr tid : Int)
    (hpos : ∀ it ∈ t.items, 0 ≤ it.position) (hdur : ∀ it ∈ t.items, 0 < it.duration)
    (hid : ∀ it ∈ t.items, 0 ≤ it.id) (htrack : ∀ it ∈ t.items, it.trackId ≠ -1)
    (huniq : (t.items.map fun x => x.id).Nodup)
    (htrk : trk = if trackId = -1 then t.currentTrack else trackId)
    (hfr : fr = if frame = -1 then ctl.m_position else frame)
    (htid : tid = if affectAllTracks then -1 else trk)
    (hon : affectAllTracks = true →
      ∀ it ∈ t.items, it.id = t.spacerStart tid fr → it.trackId = trk) :
    ∃ last,
      (removeSpace Timeline.env trackId frame affectAllTracks
          { ctl := ctl, world := t, trace := trace }).trace
        = trace ++ [Call.requestSpacerStartOperation tid fr, last]
      ∧ (last = Call.displayMessage noClipsMessage
        ∨ (last = Call.requestSpacerEndOperation (t.spacerStart tid fr)
              (t.itemPosition (t.spacerStart tid fr))
              (t.itemPosition (t.spacerStart tid fr) - t.blankSizeAt trk fr)
          ∧ 0 ≤ t.itemPosition (t.spacerStart tid fr) - t.blankSizeAt trk fr)) := by
  by_cases hcid : t.spacerStart tid fr = -1
  · refine ⟨Call.displayMessage noClipsMessage, ?_, Or.inl rfl⟩
    subst htrk hfr htid
    simp [removeSpace, requestSpacerStartOperation, Timeline.env, hcid, Run.call, Run.log]
  · have hbound : 0 ≤ t.itemPosition (t.spacerStart tid fr) - t.blankSizeAt trk fr := by
      cases haff : affectAllTracks with
      | true =>
        have htid' : tid = -1 := by simp [htid, haff]
        exact anchor_minus_blank_nonneg t tid trk fr hpos hdur hid huniq (Or.inl htid')
          (hon haff) hcid
      | false =>
        have htid' : tid = trk := by simp [htid, haff]
        by_cases hm : trk = -1
        · have hb : t.blankSizeAt trk fr = 0 :=
            blankSizeAt_of_no_item t trk fr (fun it hit => hm ▸ htrack it hit)
          have := itemPosition_anchor_nonneg t tid fr hpos huniq hcid
          omega
        · exact anchor_minus_blank_nonneg t tid trk fr hpos hdur hid huniq (Or.inr htid')
            (htid' ▸ anchor_on_track t trk fr hm hid huniq) hcid
    refine ⟨_, ?_, Or.inr ⟨rfl, hbound⟩⟩
    subst htrk hfr htid
    simp [removeSpace, requestSpacerStartOperation, requestSpacerEndOperation, Timeline.env,
      hcid, Run.call]

theorem removeSpace_anchor_not_before_zero_witness :
    Timeline.scenario.NoOverlap
      ∧ (∀ it ∈ Timeline.scenario.items, 0 ≤ it.position)
      ∧ (∀ it ∈ Timeline.scenario.items,
          it.id = Timeline.scenario.spacerStart (-1) 120 → it.trackId = 1)
      ∧ ∃ last,
        (removeSpace Timeline.env (-1) 120 true
            { ctl := Run.ready.ctl, world := Timeline.scenario, trace := [] }).trace
          = [] ++ [Call.requestSpacerStartOperation (-1) 120, last]
        ∧ (last = Call.displayMessage noClipsMessage
          ∨ (last = Call.requestSpacerEndOperation (Timeline.scenario.spacerStart (-1) 120)
                (Timeline.scenario.itemPosition (Timeline.scenario.spacerStart (-1) 120))
                (Timeline.scenario.itemPosition (Timeline.scenario.spacerStart (-1) 120)
                  - Timeline.scenario.blankSizeAt 1 120)
            ∧ 0 ≤ Timeline.scenario.itemPosition (Timeline.scenario.spacerStart (-1) 120)
                  - Timeline.scenario.blankSizeAt 1 120)) :=
  ⟨by unfold Timeline.NoOverlap; decide, by decide, by decide,
    removeSpace_anchor_not_before_zero Timeline.scenario Run.ready.ctl [] (-1) 120 true
      1 120 (-1) (by decide) (by decide) (by decide) (by decide) (by decide) (by decide)
      (by decide) (by decide) (fun _ => by decide)⟩

/-- C15 fails as stated when `affectAllTracks` is set: on the two-track timeline (items at
`[0,10)` and `[100,110)` on track 1, `[60,70)` on track 2, no overlap, all starts `≥ 0`),
`removeSpace(1, 50, true)` reads the blank size 90 of track 1 at frame 50, gets the item
at 60 on track 2 as the anchor across all tracks, and asks the spacer end operation to move
it to `60 - 90 = -30`. -/
theorem removeSpace_all_tracks_before_zero :
    Timeline.twoTracks.NoOverlap
      ∧ (∀ it ∈ Timeline.twoTracks.items, 0 ≤ it.position ∧ 0 < it.duration)
      ∧ Timeline.env.getBlankSizeAtPos Timeline.twoTracks 1 50 = 90
      ∧ Timeline.env.requestSpacerStartOperation Timeline.twoTracks (-1) 50
          = (3, Timeline.twoTracks)
      ∧ Timeline.env.getItemPosition Timeline.twoTracks 3 = 60
      ∧ (removeSpace Timeline.env 1 50 true Run.twoTracks).trace
          = [Call.requestSpacerStartOperation (-1) 50,
              Call.requestSpacerEndOperation 3 60 (-30)]
      ∧ ¬ (0 : Int) ≤ -30 :=
  ⟨by unfold Timeline.NoOverlap; decide, by decide, by decide, by decide, by decide, by decide,
    by decide⟩

/-! ## Preview operations without a preview manager -/

theorem preview_ops_defined_with_manager (E : Env W) (r : Run W)
    (h : r.ctl.m_timelinePreview = true) :
    (removeSplitOverlay E r).isSome = true
      ∧ (createSplitOverlay E r).isSome = true
      ∧ (∀ chunks dirty date enable, (loadPreview E chunks dirty date enable r).isSome = true)
      ∧ (∀ disable, (disablePreview E disable r).isSome = true) := by
  refine ⟨?_, ?_, ?_, ?_⟩
  · unfold removeSplitOverlay
    simp only [h]
    split_ifs <;> simp_all
  · unfold createSplitOverlay
    simp only [h]
    split_ifs <;> simp_all
  · intro chunks dirty date enable
    simp [loadPreview, h, Run.modify]
  · intro disable
    simp [disablePreview, h]

/-- C14 fails on the code: with no preview manager, `removeSplitOverlay` passes its guard
and reaches `m_timelinePreview->removeOverlayTrack()`, and `disablePreview` reaches the
pointer at once; when no manager exists and setting one up fails, `createSplitOverlay`
(a clip being selected) and `loadPreview` go on to `setOverlayTrack` and `loadChunks` on
the null pointer.  The sibling `startPreviewRender` checks the pointer again after the
set-up and returns normally in the same state. -/
theorem preview_ops_reach_absent_manager :
    Run.fresh.ctl.m_timelinePreview = false
      ∧ removeSplitOverlay Timeline.env Run.fresh = none
      ∧ disablePreview Timeline.env true Run.fresh = none
      ∧ disablePreview Timeline.env false Run.fresh = none
      ∧ Run.twoTracks.ctl.m_timelinePreview = false
      ∧ (initializePreview Timeline.env Run.twoTracks).ctl.m_timelinePreview = false
      ∧ createSplitOverlay Timeline.env Run.twoTracks = none
      ∧ loadPreview Timeline.env [] [] none 0 Run.twoTracks = none
      ∧ loadPreview Timeline.env [] [] none 1 Run.twoTracks = none
      ∧ (startPreviewRender Timeline.env Run.twoTracks).isSome = true :=
  ⟨rfl, rfl, rfl, rfl, rfl, by decide, rfl, rfl, rfl, by decide⟩

end Kdenlive
